import Mathlib

/-!
Shallow embedding of `navsim/simulations/measurement.py` (class
`MeasurementSimulation`): the per-epoch atmospheric delay/drift tracker,
the observable synthesizer and the driver loop of `simulate`.

Modelling conventions:
* Python floats are modelled as exact rationals (`ℚ`).
* numpy 3-vectors are triples `Vec3`; an `rx_pos` argument of numpy size 3
  (a single static point) is a one-element list of rows, a trajectory is a
  list of length ≠ 1.
* Python dicts are insertion-ordered association lists `Dict α`; dict
  assignment is `dinsert`, `pop` is `dremove`, subscript read is `dlookup`.
* The external collaborators (ionosphere/troposphere `get_delay`, the clock
  Allan-variance model, `compute_carrier_to_noise`, the emitter provider)
  are pure functions supplied in the configuration record, per §6 of the
  design: the tracker owns all cross-epoch state.
* `np.random.randn()` draws are an explicit stream `noise : ℕ → ℚ` consumed
  three per emitter in source order.
* A Python exception (missing signal descriptor attribute error, missing
  `rx_vel` subscript on `None`, out-of-range index in the epoch loop) is
  `Option.none` / an error flag.
-/

abbrev Vec3 := ℚ × ℚ × ℚ

abbrev Dict (α : Type) := List (String × α)

def dkeys {α : Type} (d : Dict α) : List String := d.map Prod.fst

def dlookup {α : Type} (k : String) : Dict α → Option α
  | [] => none
  | p :: rest => if p.1 = k then some p.2 else dlookup k rest

/-- Python dict assignment `d[k] = v`: update in place if present, append otherwise. -/
def dinsert {α : Type} (k : String) (v : α) (d : Dict α) : Dict α :=
  if k ∈ dkeys d then d.map (fun p => if p.1 = k then (k, v) else p)
  else d ++ [(k, v)]

/-- Python `d.pop(k)`. -/
def dremove {α : Type} (k : String) (d : Dict α) : Dict α :=
  d.filter (fun p => p.1 ≠ k)

/-- Python `str.casefold()` (ASCII lowering suffices for constellation names). -/
def casefold (s : String) : String := ⟨s.data.map Char.toLower⟩

/-- numpy indexing `xs[i]`; out of range raises, modelled as `none`. -/
def nth {α : Type} : List α → ℕ → Option α
  | [], _ => none
  | x :: _, 0 => some x
  | _ :: xs, n + 1 => nth xs n

/-- `navtools.constants.SPEED_OF_LIGHT` in m/s. -/
def SPEED_OF_LIGHT : ℚ := 299792458

structure SatelliteSignal where
  fcarrier : ℚ
  transmit_power : ℚ
  transmit_antenna_gain : ℚ
deriving DecidableEq

/-- The `Signals` dataclass: per-constellation signal properties plus jamming power. -/
structure Signals where
  properties : SatelliteSignal
  js : ℚ
deriving DecidableEq

/-- One emitter's per-epoch geometry record as returned by the emitter provider. -/
structure EmitterState where
  constellation : String
  datetime : ℚ
  pos : Vec3
  az : ℚ
  el : ℚ
  range : ℚ
  range_rate : ℚ
deriving DecidableEq

structure IonosphereModelParameters where
  time : ℚ
  rx_pos : Vec3
  emitter_pos : Vec3
  az : ℚ
  el : ℚ
  fcarrier : ℚ

structure TroposphereModelParameters where
  rx_pos : Vec3
  el : ℚ

structure Observables where
  code_pseudorange : ℚ
  carrier_pseudorange : ℚ
  pseudorange_rate : ℚ
  carrier_doppler : ℚ
  cn0 : ℚ
deriving DecidableEq

structure ReceiverTruthStates where
  time : List ℚ
  pos : List Vec3
  vel : List Vec3
  clock_bias : List ℚ
  clock_drift : List ℚ
deriving DecidableEq

/-- The tracker-owned cross-epoch state: `self.__iono_delay`,
`self.__tropo_delay` and `self.__is_atmosphere_drift_uninitialized`.
Before the first epoch the two dicts do not exist yet; we model that as
empty dicts guarded by the `drift_uninitialized` flag. -/
structure TrackerState where
  iono_delay : Dict ℚ
  tropo_delay : Dict ℚ
  drift_uninitialized : Bool
deriving DecidableEq

def TrackerState.init : TrackerState :=
  { iono_delay := [], tropo_delay := [], drift_uninitialized := true }

/-- Configuration and external collaborators, as recorded on `self` by
`__init_time`, `__init_emitters` and `__init_errors`. -/
structure SimConfig where
  duration : ℚ
  fsim : ℚ
  is_ionosphere_simulated : Bool
  is_troposphere_simulated : Bool
  is_rx_clock_simulated : Bool
  ionosphere_get_delay : IonosphereModelParameters → ℚ
  troposphere_get_delay : TroposphereModelParameters → ℚ
  compute_clock_states : ℕ → List ℚ × List ℚ
  signals : Dict Signals
  pseudorange_awgn_sigma : ℚ
  carr_psr_awgn_sigma : ℚ
  pseudorange_rate_awgn_sigma : ℚ
  compute_carrier_to_noise : ℚ → ℚ → ℚ → ℚ → ℚ → ℚ

/-- `self.__tsim = 1 / configuration.fsim`. -/
def SimConfig.tsim (c : SimConfig) : ℚ := 1 / c.fsim

/-- `self.__nperiods = int(np.ceil(duration / tsim)) + 1`. -/
def SimConfig.nperiods (c : SimConfig) : ℕ := ⌈c.duration / c.tsim⌉.toNat + 1

/-- `__update_emitters_in_period`: set reconciliation of a delay-state dict
against the current epoch's visible emitters. -/
def update_emitters_in_period {α : Type} (target_emitters : Dict ℚ)
    (updated_emitters : Dict α) : Dict ℚ :=
  let new_emitters :=
    (dkeys updated_emitters).filter (fun e => decide (e ∉ dkeys target_emitters))
  let removed_emitters :=
    (dkeys target_emitters).filter (fun e => decide (e ∉ dkeys updated_emitters))
  let seeded := new_emitters.foldl (fun t e => dinsert e 0 t) target_emitters
  removed_emitters.foldl (fun t e => dremove e t) seeded

/-- The prologue of `__compute_channel_delays`: lazy seeding of the delay
dicts on the first processed epoch, followed by the two unconditional
`__update_emitters_in_period` calls. -/
def reconciled_state (st : TrackerState) (emitters : Dict EmitterState) : TrackerState :=
  let st' := if st.drift_uninitialized then
      { iono_delay := emitters.map (fun p => (p.1, (0 : ℚ))),
        tropo_delay := emitters.map (fun p => (p.1, (0 : ℚ))),
        drift_uninitialized := false }
    else st
  { iono_delay := update_emitters_in_period st'.iono_delay emitters,
    tropo_delay := update_emitters_in_period st'.tropo_delay emitters,
    drift_uninitialized := false }

abbrev ChannelAcc := TrackerState × Dict ℚ × Dict ℚ × Dict ℚ

/-- The value of the ionosphere `get_delay` call for one emitter at one epoch
(given the resolved signal descriptor of its constellation). -/
def new_iono_delay_of (cfg : SimConfig) (pos : Vec3) (state : EmitterState)
    (signal : Signals) : ℚ :=
  cfg.ionosphere_get_delay
    { time := state.datetime, rx_pos := pos, emitter_pos := state.pos,
      az := state.az, el := state.el, fcarrier := signal.properties.fcarrier }

/-- The value of the troposphere `get_delay` call for one emitter at one epoch. -/
def new_tropo_delay_of (cfg : SimConfig) (pos : Vec3) (state : EmitterState) : ℚ :=
  cfg.troposphere_get_delay { rx_pos := pos, el := state.el }

/-- The ionosphere branch of the per-emitter loop of `__compute_channel_delays`:
`(new_iono_delay, iono_drift)`, reading the previous delay from the tracker
state. A missing signal descriptor (`self.__signals.get(...)` returning
`None`, then the `.properties.fcarrier` attribute access raising) is `none`. -/
def epoch_iono (cfg : SimConfig) (pos : Vec3) (emitter : String)
    (state : EmitterState) (st : TrackerState) : Option (ℚ × ℚ) :=
  if cfg.is_ionosphere_simulated then
    match dlookup (casefold state.constellation) cfg.signals with
    | none => none
    | some signal =>
      let new_iono_delay := new_iono_delay_of cfg pos state signal
      some (new_iono_delay,
        (new_iono_delay - (dlookup emitter st.iono_delay).getD 0) / cfg.tsim)
  else some (0, 0)

/-- The troposphere branch of the per-emitter loop: `(new_tropo_delay, tropo_drift)`. -/
def epoch_tropo (cfg : SimConfig) (pos : Vec3) (emitter : String)
    (state : EmitterState) (st : TrackerState) : ℚ × ℚ :=
  if cfg.is_troposphere_simulated then
    let new_tropo_delay := new_tropo_delay_of cfg pos state
    (new_tropo_delay,
      (new_tropo_delay - (dlookup emitter st.tropo_delay).getD 0) / cfg.tsim)
  else (0, 0)

/-- The body of the per-emitter loop of `__compute_channel_delays`: both
atmosphere branches, the overwrite of the stored delays, and the composition
of the three output dicts. -/
def channel_step (cfg : SimConfig) (pos : Vec3) (acc : Option ChannelAcc)
    (p : String × EmitterState) : Option ChannelAcc :=
  acc.bind fun (st, code_delays, carrier_delays, drifts) =>
    (epoch_iono cfg pos p.1 p.2 st).bind fun ir =>
      let tr := epoch_tropo cfg pos p.1 p.2 st
      some ({ st with iono_delay := dinsert p.1 ir.1 st.iono_delay,
                      tropo_delay := dinsert p.1 tr.1 st.tropo_delay },
            dinsert p.1 (ir.1 + tr.1) code_delays,
            dinsert p.1 (-ir.1 + tr.1) carrier_delays,
            dinsert p.1 (-ir.2 + tr.2) drifts)

/-- `__compute_channel_delays`, returning the updated tracker state together
with the `code_delays`, `carrier_delays` and `drifts` dicts. -/
def compute_channel_delays (cfg : SimConfig) (st : TrackerState)
    (emitters : Dict EmitterState) (pos : Vec3) : Option ChannelAcc :=
  emitters.foldl (channel_step cfg pos) (some (reconciled_state st emitters, [], [], []))

abbrev ObsAcc := Dict Observables × ℕ

/-- The body of the `__compute_observables` per-emitter loop for one emitter
with its resolved signal descriptor: the three noisy observables, the
derived Doppler and the carrier-to-noise call. `n1`, `n2`, `n3` are the
three `np.random.randn()` draws, in source order. -/
def observable_of (cfg : SimConfig) (emitter : String) (state : EmitterState)
    (signal : Signals) (code_delays carrier_delays drifts : Dict ℚ)
    (clock_bias clock_drift : ℚ) (n1 n2 n3 : ℚ) : Observables :=
  let code_pseudorange := state.range + (dlookup emitter code_delays).getD 0
    + clock_bias + cfg.pseudorange_awgn_sigma * n1
  let carrier_pseudorange := state.range + (dlookup emitter carrier_delays).getD 0
    + clock_bias + cfg.carr_psr_awgn_sigma * n2
  let pseudorange_rate := state.range_rate + (dlookup emitter drifts).getD 0
    + clock_drift + cfg.pseudorange_rate_awgn_sigma * n3
  { code_pseudorange := code_pseudorange,
    carrier_pseudorange := carrier_pseudorange,
    pseudorange_rate := pseudorange_rate,
    carrier_doppler := -pseudorange_rate * signal.properties.fcarrier / SPEED_OF_LIGHT,
    cn0 := cfg.compute_carrier_to_noise state.range signal.properties.transmit_power
      signal.properties.transmit_antenna_gain signal.properties.fcarrier signal.js }

/-- The body of the per-emitter loop of `__compute_observables`; the natural
number is the position in the `randn` draw stream. A missing signal
descriptor is `none`. -/
def observables_step (cfg : SimConfig) (code_delays carrier_delays drifts : Dict ℚ)
    (clock_bias clock_drift : ℚ) (noise : ℕ → ℚ)
    (acc : Option ObsAcc) (p : String × EmitterState) : Option ObsAcc :=
  acc.bind fun (observables, k) =>
    match dlookup (casefold p.2.constellation) cfg.signals with
    | none => none
    | some signal =>
      some (dinsert p.1
        (observable_of cfg p.1 p.2 signal code_delays carrier_delays drifts
          clock_bias clock_drift (noise k) (noise (k + 1)) (noise (k + 2)))
        observables, k + 3)

/-- `__compute_observables`. -/
def compute_observables (cfg : SimConfig) (emitters : Dict EmitterState)
    (code_delays carrier_delays drifts : Dict ℚ) (clock_bias clock_drift : ℚ)
    (noise : ℕ → ℚ) (k : ℕ) : Option ObsAcc :=
  emitters.foldl
    (observables_step cfg code_delays carrier_delays drifts clock_bias clock_drift noise)
    (some ([], k))

/-- `np.linspace(start=0, stop=duration, num=nperiods)`. -/
def timeseries (cfg : SimConfig) : List ℚ :=
  (List.range cfg.nperiods).map
    (fun i : ℕ => cfg.duration * (i : ℚ) / ((cfg.nperiods - 1 : ℕ) : ℚ))

/-- `__simulate_receiver_states`. A static `rx_pos` (numpy size 3, one row)
is tiled and the velocity zeroed; otherwise the arrays are sliced with
`[: nperiods, :]`, which on `rx_vel = None` raises (`none`). -/
def simulate_receiver_states (cfg : SimConfig) (rx_pos : List Vec3)
    (rx_vel : Option (List Vec3)) : Option ReceiverTruthStates :=
  let posvel : Option (List Vec3 × List Vec3) :=
    match rx_pos with
    | [p] => some (List.replicate cfg.nperiods p,
                   List.replicate cfg.nperiods ((0 : ℚ), (0 : ℚ), (0 : ℚ)))
    | _ =>
      match rx_vel with
      | none => none
      | some v => some (rx_pos.take cfg.nperiods, v.take cfg.nperiods)
  posvel.bind fun pv =>
    let clock : List ℚ × List ℚ :=
      if cfg.is_rx_clock_simulated then cfg.compute_clock_states cfg.nperiods
      else (List.replicate cfg.nperiods 0, List.replicate cfg.nperiods 0)
    some { time := timeseries cfg, pos := pv.1, vel := pv.2,
           clock_bias := clock.1, clock_drift := clock.2 }

/-- The epoch loop of `simulate`: per epoch, receiver state access,
`__compute_channel_delays`, then `__compute_observables`; observables of
completed epochs accumulate, the `Bool` records whether the loop aborted
with an exception. -/
def run_epochs (cfg : SimConfig) (noise : ℕ → ℚ) (posL : List Vec3)
    (cbL cdL : List ℚ) :
    List (Dict EmitterState) → TrackerState → ℕ → ℕ →
    List (Dict Observables) × Bool
  | [], _, _, _ => ([], false)
  | emitters :: rest, st, k, period =>
    match nth posL period with
    | none => ([], true)
    | some pos =>
      match compute_channel_delays cfg st emitters pos with
      | none => ([], true)
      | some (st', code_delays, carrier_delays, drifts) =>
        match nth cbL period, nth cdL period with
        | some cb, some cd =>
          match compute_observables cfg emitters code_delays carrier_delays drifts
              cb cd noise k with
          | none => ([], true)
          | some (obs, k') =>
            let r := run_epochs cfg noise posL cbL cdL rest st' k' (period + 1)
            (obs :: r.1, r.2)
        | _, _ => ([], true)

/-- `simulate`: receiver-state construction, then the epoch loop; the
per-epoch visible-emitter sequence comes from the external emitter provider. -/
def simulate (cfg : SimConfig) (rx_pos : List Vec3) (rx_vel : Option (List Vec3))
    (emitter_states : List (Dict EmitterState)) (noise : ℕ → ℚ) :
    Option (ReceiverTruthStates × List (Dict Observables) × Bool) :=
  (simulate_receiver_states cfg rx_pos rx_vel).bind fun rx =>
    some (rx, run_epochs cfg noise rx.pos rx.clock_bias rx.clock_drift
      emitter_states TrackerState.init 0 0)

/-- A chain of successive `__compute_channel_delays` calls (one per epoch),
keeping only the tracker state; used to speak about emitters that stay out
of view for several epochs. -/
def ccd_chain (cfg : SimConfig) : List (Dict EmitterState × Vec3) → TrackerState → Option TrackerState
  | [], st => some st
  | (em, pos) :: rest, st =>
    match compute_channel_delays cfg st em pos with
    | none => none
    | some (st', _, _, _) => ccd_chain cfg rest st'


/-! ### Concrete fixtures used to instantiate the theorems -/

def sigGPS : Signals :=
  { properties := { fcarrier := 1, transmit_power := 2, transmit_antenna_gain := 3 },
    js := 4 }

/-- Both atmosphere models enabled; the ionosphere delay is the emitter's
epoch timestamp, the troposphere delay a constant `5`. -/
def cfgA : SimConfig :=
  { duration := 1, fsim := 1,
    is_ionosphere_simulated := true, is_troposphere_simulated := true,
    is_rx_clock_simulated := false,
    ionosphere_get_delay := fun p => p.time,
    troposphere_get_delay := fun _ => 5,
    compute_clock_states := fun n => (List.replicate n 0, List.replicate n 0),
    signals := [("gps", sigGPS)],
    pseudorange_awgn_sigma := 0, carr_psr_awgn_sigma := 0,
    pseudorange_rate_awgn_sigma := 0,
    compute_carrier_to_noise := fun _ _ _ _ _ => 0 }

/-- All three error models disabled, noiseless, three epochs (`nperiods = 3`). -/
def cfgB : SimConfig :=
  { duration := 2, fsim := 1,
    is_ionosphere_simulated := false, is_troposphere_simulated := false,
    is_rx_clock_simulated := false,
    ionosphere_get_delay := fun _ => 0,
    troposphere_get_delay := fun _ => 0,
    compute_clock_states := fun n => (List.replicate n 0, List.replicate n 0),
    signals := [("gps", sigGPS)],
    pseudorange_awgn_sigma := 0, carr_psr_awgn_sigma := 0,
    pseudorange_rate_awgn_sigma := 0,
    compute_carrier_to_noise := fun _ _ _ _ _ => 0 }

/-- Constant atmosphere delays `10` (iono) and `5` (tropo), for the sign
convention instance of the spec. -/
def cfgC4 : SimConfig :=
  { cfgA with ionosphere_get_delay := fun _ => 10 }

def sA1 : EmitterState :=
  { constellation := "gps", datetime := 0, pos := (0,0,0), az := 0, el := 0,
    range := 100, range_rate := -1 }

def sA2 : EmitterState := { sA1 with datetime := 3 }

/-- An emitter whose constellation has no signal-descriptor entry. -/
def sBAD : EmitterState := { sA1 with constellation := "bad" }

def noise0 : ℕ → ℚ := fun _ => 0

/-- The observable record produced for `sA1` under `cfgB` with zero clock
terms and zero delays. -/
def obsW : Observables :=
  { code_pseudorange := 100, carrier_pseudorange := 100, pseudorange_rate := -1,
    carrier_doppler := 1 / SPEED_OF_LIGHT, cn0 := 0 }

/-- The receiver truth state produced by `cfgB` for the static point
`(1,2,3)`: note the zero velocity. -/
def rxStaticB : ReceiverTruthStates :=
  { time := timeseries cfgB, pos := List.replicate 3 (1, 2, 3),
    vel := List.replicate 3 (0, 0, 0), clock_bias := List.replicate 3 0,
    clock_drift := List.replicate 3 0 }

/-! ### Association-list lemmas -/

@[simp] theorem dkeys_nil {α : Type} : dkeys ([] : Dict α) = [] := rfl

@[simp] theorem dkeys_cons {α : Type} (p : String × α) (d : Dict α) :
    dkeys (p :: d) = p.1 :: dkeys d := rfl

@[simp] theorem dlookup_nil {α : Type} (k : String) : dlookup k ([] : Dict α) = none := rfl

theorem dlookup_cons {α : Type} (k : String) (p : String × α) (d : Dict α) :
    dlookup k (p :: d) = if p.1 = k then some p.2 else dlookup k d := rfl

theorem dlookup_isSome {α : Type} (k : String) (d : Dict α) :
    (dlookup k d).isSome ↔ k ∈ dkeys d := by
  induction d with
  | nil => simp
  | cons p rest ih =>
    rw [dlookup_cons]
    by_cases h : p.1 = k
    · simp [h]
    · simp only [if_neg h, dkeys_cons, List.mem_cons, ih]
      constructor
      · exact Or.inr
      · rintro (hc | hc)
        · exact absurd hc.symm h
        · exact hc

theorem dlookup_eq_none {α : Type} (k : String) (d : Dict α) :
    dlookup k d = none ↔ k ∉ dkeys d := by
  rw [← dlookup_isSome]
  cases dlookup k d <;> simp

theorem dlookup_mem {α : Type} {k : String} {v : α} :
    ∀ {d : Dict α}, dlookup k d = some v → (k, v) ∈ d := by
  intro d
  induction d with
  | nil => simp
  | cons p rest ih =>
    rw [dlookup_cons]
    by_cases h : p.1 = k
    · rw [if_pos h]
      rintro ⟨rfl⟩
      rw [← h]
      exact List.mem_cons_self _ _
    · rw [if_neg h]
      intro hr
      exact List.mem_cons_of_mem _ (ih hr)

theorem mem_dkeys_of_dlookup {α : Type} {k : String} {v : α} {d : Dict α}
    (h : dlookup k d = some v) : k ∈ dkeys d := by
  rw [← dlookup_isSome, h]; rfl

theorem dlookup_map_overwrite {α : Type} (k : String) (v : α) :
    ∀ d : Dict α, k ∈ dkeys d →
      dlookup k (d.map (fun p => if p.1 = k then (k, v) else p)) = some v := by
  intro d
  induction d with
  | nil => simp
  | cons p rest ih =>
    intro h
    rw [List.map_cons, dlookup_cons]
    by_cases hp : p.1 = k
    · simp [hp]
    · simp only [hp, if_false]
      refine ih ?_
      rcases List.mem_cons.mp (by simpa using h) with h' | h'
      · exact absurd h'.symm hp
      · exact h'

theorem dlookup_append_not_mem {α : Type} (k : String) (v : α) :
    ∀ d : Dict α, k ∉ dkeys d → dlookup k (d ++ [(k, v)]) = some v := by
  intro d
  induction d with
  | nil => simp [dlookup_cons]
  | cons p rest ih =>
    intro h
    rw [List.cons_append, dlookup_cons]
    have hp : p.1 ≠ k := fun hc => h (by simp [hc])
    rw [if_neg hp]
    exact ih fun hc => h (by simp [hc])

theorem dlookup_dinsert_self {α : Type} (k : String) (v : α) (d : Dict α) :
    dlookup k (dinsert k v d) = some v := by
  by_cases h : k ∈ dkeys d
  · rw [dinsert, if_pos h]
    exact dlookup_map_overwrite k v d h
  · rw [dinsert, if_neg h]
    exact dlookup_append_not_mem k v d h

theorem dlookup_map_overwrite_ne {α : Type} {k e : String} (v : α) (hne : e ≠ k) :
    ∀ d : Dict α, dlookup e (d.map (fun p => if p.1 = k then (k, v) else p)) = dlookup e d := by
  intro d
  induction d with
  | nil => simp
  | cons p rest ih =>
    rw [List.map_cons, dlookup_cons, dlookup_cons]
    by_cases hp : p.1 = k
    · simp [hp, Ne.symm hne, ih]
    · simp [hp, ih]

theorem dlookup_append_ne {α : Type} {k e : String} (v : α) (hne : e ≠ k) :
    ∀ d : Dict α, dlookup e (d ++ [(k, v)]) = dlookup e d := by
  intro d
  induction d with
  | nil => simp [dlookup_cons, Ne.symm hne]
  | cons p rest ih =>
    rw [List.cons_append, dlookup_cons, dlookup_cons, ih]

theorem dlookup_dinsert_ne {α : Type} {k e : String} (v : α) (d : Dict α)
    (hne : e ≠ k) : dlookup e (dinsert k v d) = dlookup e d := by
  by_cases h : k ∈ dkeys d
  · rw [dinsert, if_pos h]
    exact dlookup_map_overwrite_ne v hne d
  · rw [dinsert, if_neg h]
    exact dlookup_append_ne v hne d

theorem mem_dkeys_dinsert {α : Type} (x k : String) (v : α) (d : Dict α) :
    x ∈ dkeys (dinsert k v d) ↔ x = k ∨ x ∈ dkeys d := by
  by_cases hx : x = k
  · subst hx
    constructor
    · intro _; exact Or.inl rfl
    · intro _
      rw [← dlookup_isSome, dlookup_dinsert_self]
      rfl
  · rw [← dlookup_isSome, dlookup_dinsert_ne v d hx, dlookup_isSome]
    simp [hx]

theorem dremove_cons {α : Type} (k : String) (p : String × α) (d : Dict α) :
    dremove k (p :: d) = if p.1 = k then dremove k d else p :: dremove k d := by
  by_cases hp : p.1 = k <;> simp [dremove, List.filter_cons, hp]

theorem dlookup_dremove_self {α : Type} (k : String) (d : Dict α) :
    dlookup k (dremove k d) = none := by
  induction d with
  | nil => simp [dremove]
  | cons p rest ih =>
    rw [dremove_cons]
    by_cases hp : p.1 = k
    · rw [if_pos hp]; exact ih
    · rw [if_neg hp, dlookup_cons, if_neg hp]; exact ih

theorem dlookup_dremove_ne {α : Type} {k e : String} (d : Dict α)
    (hne : e ≠ k) : dlookup e (dremove k d) = dlookup e d := by
  induction d with
  | nil => simp [dremove]
  | cons p rest ih =>
    rw [dremove_cons]
    by_cases hp : p.1 = k
    · have hpe : p.1 ≠ e := by rw [hp]; exact Ne.symm hne
      rw [if_pos hp, dlookup_cons, if_neg hpe]
      exact ih
    · rw [if_neg hp, dlookup_cons, dlookup_cons, ih]

theorem dlookup_foldl_dinsert {α : Type} (v : α) (e : String) :
    ∀ (L : List String) (d : Dict α),
      dlookup e (L.foldl (fun t k => dinsert k v t) d)
        = if e ∈ L then some v else dlookup e d := by
  intro L
  induction L with
  | nil => intro d; simp
  | cons k L' ih =>
    intro d
    rw [List.foldl_cons, ih]
    by_cases hL : e ∈ L'
    · simp [hL]
    · by_cases hk : e = k
      · subst hk; simp [hL, dlookup_dinsert_self]
      · simp [hL, hk, dlookup_dinsert_ne v d hk]

theorem dlookup_foldl_dremove {α : Type} (e : String) :
    ∀ (L : List String) (d : Dict α),
      dlookup e (L.foldl (fun t k => dremove k t) d)
        = if e ∈ L then none else dlookup e d := by
  intro L
  induction L with
  | nil => intro d; simp
  | cons k L' ih =>
    intro d
    rw [List.foldl_cons, ih]
    by_cases hL : e ∈ L'
    · simp [hL]
    · by_cases hk : e = k
      · subst hk; simp [hL, dlookup_dremove_self]
      · simp [hL, hk, dlookup_dremove_ne d hk]

/-! ### Set-reconciliation lemmas -/

theorem dlookup_update_emitters {α : Type} (target : Dict ℚ) (updated : Dict α) (e : String) :
    dlookup e (update_emitters_in_period target updated)
      = if e ∈ dkeys updated then some ((dlookup e target).getD 0) else none := by
  simp only [update_emitters_in_period]
  rw [dlookup_foldl_dremove, dlookup_foldl_dinsert]
  by_cases hu : e ∈ dkeys updated
  · have hnr : e ∉ (dkeys target).filter (fun x => decide (x ∉ dkeys updated)) := by
      intro hc
      exact (by simpa using (List.mem_filter.mp hc).2 : e ∉ dkeys updated) hu
    rw [if_neg hnr, if_pos hu]
    by_cases ht : e ∈ dkeys target
    · have hnn : e ∉ (dkeys updated).filter (fun x => decide (x ∉ dkeys target)) := by
        intro hc
        exact (by simpa using (List.mem_filter.mp hc).2 : e ∉ dkeys target) ht
      rw [if_neg hnn]
      obtain ⟨v, hv⟩ := Option.isSome_iff_exists.mp ((dlookup_isSome e target).mpr ht)
      rw [hv]; rfl
    · have hn : e ∈ (dkeys updated).filter (fun x => decide (x ∉ dkeys target)) :=
        List.mem_filter.mpr ⟨hu, by simpa using ht⟩
      rw [if_pos hn, (dlookup_eq_none e target).mpr ht]
      rfl
  · rw [if_neg hu]
    by_cases ht : e ∈ dkeys target
    · have hr : e ∈ (dkeys target).filter (fun x => decide (x ∉ dkeys updated)) :=
        List.mem_filter.mpr ⟨ht, by simpa using hu⟩
      rw [if_pos hr]
    · have hnr : e ∉ (dkeys target).filter (fun x => decide (x ∉ dkeys updated)) := by
        intro hc; exact ht (List.mem_filter.mp hc).1
      have hnn : e ∉ (dkeys updated).filter (fun x => decide (x ∉ dkeys target)) := by
        intro hc; exact hu (List.mem_filter.mp hc).1
      rw [if_neg hnr, if_neg hnn]
      exact (dlookup_eq_none e target).mpr ht

theorem mem_dkeys_update_emitters {α : Type} (target : Dict ℚ) (updated : Dict α)
    (e : String) :
    e ∈ dkeys (update_emitters_in_period target updated) ↔ e ∈ dkeys updated := by
  rw [← dlookup_isSome, dlookup_update_emitters]
  by_cases hu : e ∈ dkeys updated <;> simp [hu]

theorem dlookup_seed {β : Type} (em : Dict β) (e : String) :
    dlookup e (em.map (fun p => (p.1, (0 : ℚ))))
      = if e ∈ dkeys em then some 0 else none := by
  induction em with
  | nil => simp
  | cons p rest ih =>
    rw [List.map_cons, dlookup_cons]
    by_cases hp : p.1 = e
    · simp [hp]
    · by_cases hr : e ∈ dkeys rest
      · simp [hp, hr, ih]
      · simp [hp, Ne.symm hp, hr, ih]

theorem reconciled_state_flag (st : TrackerState) (em : Dict EmitterState) :
    (reconciled_state st em).drift_uninitialized = false := rfl

theorem dlookup_reconciled_iono (st : TrackerState) (em : Dict EmitterState) (e : String) :
    dlookup e (reconciled_state st em).iono_delay
      = if e ∈ dkeys em then
          some (if st.drift_uninitialized then 0 else (dlookup e st.iono_delay).getD 0)
        else none := by
  cases hflag : st.drift_uninitialized with
  | false =>
    simp only [reconciled_state, hflag, Bool.false_eq_true, if_false]
    rw [dlookup_update_emitters]
  | true =>
    simp only [reconciled_state, hflag, if_true]
    rw [dlookup_update_emitters]
    by_cases hu : e ∈ dkeys em
    · rw [if_pos hu, if_pos hu, dlookup_seed, if_pos hu]
      rfl
    · rw [if_neg hu, if_neg hu]

theorem dlookup_reconciled_tropo (st : TrackerState) (em : Dict EmitterState) (e : String) :
    dlookup e (reconciled_state st em).tropo_delay
      = if e ∈ dkeys em then
          some (if st.drift_uninitialized then 0 else (dlookup e st.tropo_delay).getD 0)
        else none := by
  cases hflag : st.drift_uninitialized with
  | false =>
    simp only [reconciled_state, hflag, Bool.false_eq_true, if_false]
    rw [dlookup_update_emitters]
  | true =>
    simp only [reconciled_state, hflag, if_true]
    rw [dlookup_update_emitters]
    by_cases hu : e ∈ dkeys em
    · rw [if_pos hu, if_pos hu, dlookup_seed, if_pos hu]
      rfl
    · rw [if_neg hu, if_neg hu]

/-! ### Channel-delay loop lemmas -/

theorem channel_step_some (cfg : SimConfig) (pos : Vec3) (st : TrackerState)
    (cds cas drs : Dict ℚ) (p : String × EmitterState) :
    channel_step cfg pos (some (st, cds, cas, drs)) p
      = (epoch_iono cfg pos p.1 p.2 st).map fun ir =>
          ({ st with iono_delay := dinsert p.1 ir.1 st.iono_delay,
                     tropo_delay := dinsert p.1 (epoch_tropo cfg pos p.1 p.2 st).1 st.tropo_delay },
           dinsert p.1 (ir.1 + (epoch_tropo cfg pos p.1 p.2 st).1) cds,
           dinsert p.1 (-ir.1 + (epoch_tropo cfg pos p.1 p.2 st).1) cas,
           dinsert p.1 (-ir.2 + (epoch_tropo cfg pos p.1 p.2 st).2) drs) := by
  rcases hio : epoch_iono cfg pos p.1 p.2 st with _ | ir <;>
    simp [channel_step, hio]

theorem channel_foldl_none (cfg : SimConfig) (pos : Vec3) :
    ∀ L : Dict EmitterState, L.foldl (channel_step cfg pos) none = none := by
  intro L
  induction L with
  | nil => rfl
  | cons p L' ih => rw [List.foldl_cons]; exact ih

theorem channel_foldl_flag (cfg : SimConfig) (pos : Vec3) :
    ∀ (L : Dict EmitterState) (st : TrackerState) (cds cas drs : Dict ℚ)
      (st' : TrackerState) (cds' cas' drs' : Dict ℚ),
      L.foldl (channel_step cfg pos) (some (st, cds, cas, drs))
        = some (st', cds', cas', drs') →
      st'.drift_uninitialized = st.drift_uninitialized := by
  intro L
  induction L with
  | nil =>
    intro st cds cas drs st' cds' cas' drs' h
    simp only [List.foldl_nil, Option.some.injEq, Prod.mk.injEq] at h
    rw [← h.1]
  | cons p L' ih =>
    intro st cds cas drs st' cds' cas' drs' h
    rw [List.foldl_cons, channel_step_some] at h
    rcases hio : epoch_iono cfg pos p.1 p.2 st with _ | ir
    · rw [hio] at h
      simp only [Option.map_none'] at h
      rw [channel_foldl_none] at h
      exact absurd h (by simp)
    · rw [hio] at h
      simp only [Option.map_some'] at h
      have h2 := ih _ _ _ _ _ _ _ _ h
      rw [h2]

theorem epoch_iono_congr (cfg : SimConfig) (pos : Vec3) (e : String)
    (s : EmitterState) {a b : TrackerState}
    (h : dlookup e a.iono_delay = dlookup e b.iono_delay) :
    epoch_iono cfg pos e s a = epoch_iono cfg pos e s b := by
  simp only [epoch_iono, h]

theorem epoch_tropo_congr (cfg : SimConfig) (pos : Vec3) (e : String)
    (s : EmitterState) {a b : TrackerState}
    (h : dlookup e a.tropo_delay = dlookup e b.tropo_delay) :
    epoch_tropo cfg pos e s a = epoch_tropo cfg pos e s b := by
  simp only [epoch_tropo, h]

theorem channel_foldl_untouched (cfg : SimConfig) (pos : Vec3) :
    ∀ (L : Dict EmitterState) (st : TrackerState) (cds cas drs : Dict ℚ)
      (st' : TrackerState) (cds' cas' drs' : Dict ℚ),
      L.foldl (channel_step cfg pos) (some (st, cds, cas, drs))
        = some (st', cds', cas', drs') →
      ∀ e, e ∉ dkeys L →
        dlookup e st'.iono_delay = dlookup e st.iono_delay ∧
        dlookup e st'.tropo_delay = dlookup e st.tropo_delay ∧
        dlookup e cds' = dlookup e cds ∧
        dlookup e cas' = dlookup e cas ∧
        dlookup e drs' = dlookup e drs := by
  intro L
  induction L with
  | nil =>
    intro st cds cas drs st' cds' cas' drs' h e _
    simp only [List.foldl_nil, Option.some.injEq, Prod.mk.injEq] at h
    obtain ⟨h1, h2, h3, h4⟩ := h
    subst h1; subst h2; subst h3; subst h4
    exact ⟨rfl, rfl, rfl, rfl, rfl⟩
  | cons p L' ih =>
    intro st cds cas drs st' cds' cas' drs' h e he
    rw [List.foldl_cons, channel_step_some] at h
    rcases hio : epoch_iono cfg pos p.1 p.2 st with _ | ir
    · rw [hio] at h
      simp only [Option.map_none'] at h
      rw [channel_foldl_none] at h
      exact absurd h (by simp)
    · rw [hio] at h
      simp only [Option.map_some'] at h
      have hne : e ≠ p.1 := fun hc => he (by simp [hc])
      have heL : e ∉ dkeys L' := fun hc => he (by simp [hc])
      obtain ⟨h1, h2, h3, h4, h5⟩ := ih _ _ _ _ _ _ _ _ h e heL
      rw [dlookup_dinsert_ne _ _ hne] at h1 h2 h3 h4 h5
      exact ⟨h1, h2, h3, h4, h5⟩

theorem channel_foldl_keys (cfg : SimConfig) (pos : Vec3) :
    ∀ (L : Dict EmitterState) (st : TrackerState) (cds cas drs : Dict ℚ)
      (st' : TrackerState) (cds' cas' drs' : Dict ℚ),
      L.foldl (channel_step cfg pos) (some (st, cds, cas, drs))
        = some (st', cds', cas', drs') →
      ∀ x, (x ∈ dkeys st'.iono_delay ↔ x ∈ dkeys st.iono_delay ∨ x ∈ dkeys L) ∧
           (x ∈ dkeys st'.tropo_delay ↔ x ∈ dkeys st.tropo_delay ∨ x ∈ dkeys L) := by
  intro L
  induction L with
  | nil =>
    intro st cds cas drs st' cds' cas' drs' h x
    simp only [List.foldl_nil, Option.some.injEq, Prod.mk.injEq] at h
    obtain ⟨h1, h2, h3, h4⟩ := h
    subst h1
    simp
  | cons p L' ih =>
    intro st cds cas drs st' cds' cas' drs' h x
    rw [List.foldl_cons, channel_step_some] at h
    rcases hio : epoch_iono cfg pos p.1 p.2 st with _ | ir
    · rw [hio] at h
      simp only [Option.map_none'] at h
      rw [channel_foldl_none] at h
      exact absurd h (by simp)
    · rw [hio] at h
      simp only [Option.map_some'] at h
      obtain ⟨h1, h2⟩ := ih _ _ _ _ _ _ _ _ h x
      constructor
      · rw [h1]
        simp only [mem_dkeys_dinsert, dkeys_cons, List.mem_cons]
        tauto
      · rw [h2]
        simp only [mem_dkeys_dinsert, dkeys_cons, List.mem_cons]
        tauto

theorem channel_foldl_mem (cfg : SimConfig) (pos : Vec3) :
    ∀ (L : Dict EmitterState) (st : TrackerState) (cds cas drs : Dict ℚ)
      (st' : TrackerState) (cds' cas' drs' : Dict ℚ),
      L.foldl (channel_step cfg pos) (some (st, cds, cas, drs))
        = some (st', cds', cas', drs') →
      (dkeys L).Nodup →
      ∀ e s, (e, s) ∈ L →
        ∃ ir, epoch_iono cfg pos e s st = some ir ∧
          dlookup e st'.iono_delay = some ir.1 ∧
          dlookup e st'.tropo_delay = some (epoch_tropo cfg pos e s st).1 ∧
          dlookup e cds' = some (ir.1 + (epoch_tropo cfg pos e s st).1) ∧
          dlookup e cas' = some (-ir.1 + (epoch_tropo cfg pos e s st).1) ∧
          dlookup e drs' = some (-ir.2 + (epoch_tropo cfg pos e s st).2) := by
  intro L
  induction L with
  | nil =>
    intro st cds cas drs st' cds' cas' drs' _ _ e s hmem
    exact absurd hmem (by simp)
  | cons p L' ih =>
    intro st cds cas drs st' cds' cas' drs' h hnd e s hmem
    rw [List.foldl_cons, channel_step_some] at h
    rcases hio : epoch_iono cfg pos p.1 p.2 st with _ | ir0
    · rw [hio] at h
      simp only [Option.map_none'] at h
      rw [channel_foldl_none] at h
      exact absurd h (by simp)
    · rw [hio] at h
      simp only [Option.map_some'] at h
      have hnd' : (dkeys L').Nodup := (List.nodup_cons.mp (by simpa using hnd)).2
      have hpL' : p.1 ∉ dkeys L' := (List.nodup_cons.mp (by simpa using hnd)).1
      rcases List.mem_cons.mp hmem with hps | hmem'
      · have hep : e = p.1 := congrArg Prod.fst hps
        have hsp : s = p.2 := congrArg Prod.snd hps
        subst hep; subst hsp
        obtain ⟨h1, h2, h3, h4, h5⟩ :=
          channel_foldl_untouched cfg pos L' _ _ _ _ _ _ _ _ h p.1 hpL'
        refine ⟨ir0, hio, ?_, ?_, ?_, ?_, ?_⟩
        · rw [h1, dlookup_dinsert_self]
        · rw [h2, dlookup_dinsert_self]
        · rw [h3, dlookup_dinsert_self]
        · rw [h4, dlookup_dinsert_self]
        · rw [h5, dlookup_dinsert_self]
      · have heL : e ∈ dkeys L' := by
          simp only [dkeys, List.mem_map]
          exact ⟨(e, s), hmem', rfl⟩
        have hne : e ≠ p.1 := fun hc => hpL' (hc ▸ heL)
        obtain ⟨ir, hir, h1, h2, h3, h4, h5⟩ := ih _ _ _ _ _ _ _ _ h hnd' e s hmem'
        have hlio : dlookup e (dinsert p.1 ir0.1 st.iono_delay) = dlookup e st.iono_delay :=
          dlookup_dinsert_ne _ _ hne
        have hltr : dlookup e (dinsert p.1 (epoch_tropo cfg pos p.1 p.2 st).1 st.tropo_delay)
            = dlookup e st.tropo_delay := dlookup_dinsert_ne _ _ hne
        have hie : epoch_iono cfg pos e s { st with
            iono_delay := dinsert p.1 ir0.1 st.iono_delay,
            tropo_delay := dinsert p.1 (epoch_tropo cfg pos p.1 p.2 st).1 st.tropo_delay }
            = epoch_iono cfg pos e s st := epoch_iono_congr cfg pos e s hlio
        have hte : epoch_tropo cfg pos e s { st with
            iono_delay := dinsert p.1 ir0.1 st.iono_delay,
            tropo_delay := dinsert p.1 (epoch_tropo cfg pos p.1 p.2 st).1 st.tropo_delay }
            = epoch_tropo cfg pos e s st := epoch_tropo_congr cfg pos e s hltr
        rw [hie] at hir
        rw [hte] at h2 h3 h4 h5
        exact ⟨ir, hir, h1, h2, h3, h4, h5⟩

/-! ### `__compute_channel_delays` characterization -/

theorem compute_channel_delays_flag {cfg : SimConfig} {st : TrackerState}
    {em : Dict EmitterState} {pos : Vec3} {st' : TrackerState} {cds cas drs : Dict ℚ}
    (h : compute_channel_delays cfg st em pos = some (st', cds, cas, drs)) :
    st'.drift_uninitialized = false := by
  rw [compute_channel_delays] at h
  rw [channel_foldl_flag cfg pos em _ _ _ _ _ _ _ _ h]
  exact reconciled_state_flag st em

theorem compute_channel_delays_keys {cfg : SimConfig} {st : TrackerState}
    {em : Dict EmitterState} {pos : Vec3} {st' : TrackerState} {cds cas drs : Dict ℚ}
    (h : compute_channel_delays cfg st em pos = some (st', cds, cas, drs)) (x : String) :
    (x ∈ dkeys st'.iono_delay ↔ x ∈ dkeys em) ∧
    (x ∈ dkeys st'.tropo_delay ↔ x ∈ dkeys em) := by
  rw [compute_channel_delays] at h
  obtain ⟨h1, h2⟩ := channel_foldl_keys cfg pos em _ _ _ _ _ _ _ _ h x
  have hri : x ∈ dkeys (reconciled_state st em).iono_delay ↔ x ∈ dkeys em := by
    rw [← dlookup_isSome, dlookup_reconciled_iono]
    by_cases hx : x ∈ dkeys em <;> simp [hx]
  have hrt : x ∈ dkeys (reconciled_state st em).tropo_delay ↔ x ∈ dkeys em := by
    rw [← dlookup_isSome, dlookup_reconciled_tropo]
    by_cases hx : x ∈ dkeys em <;> simp [hx]
  rw [h1, h2, hri, hrt]
  constructor <;> tauto

theorem compute_channel_delays_spec {cfg : SimConfig} {st : TrackerState}
    {em : Dict EmitterState} {pos : Vec3} {st' : TrackerState} {cds cas drs : Dict ℚ}
    (h : compute_channel_delays cfg st em pos = some (st', cds, cas, drs))
    (hnd : (dkeys em).Nodup) {e : String} {s : EmitterState}
    (he : dlookup e em = some s) :
    ∃ ir, epoch_iono cfg pos e s (reconciled_state st em) = some ir ∧
      dlookup e st'.iono_delay = some ir.1 ∧
      dlookup e st'.tropo_delay = some (epoch_tropo cfg pos e s (reconciled_state st em)).1 ∧
      dlookup e cds = some (ir.1 + (epoch_tropo cfg pos e s (reconciled_state st em)).1) ∧
      dlookup e cas = some (-ir.1 + (epoch_tropo cfg pos e s (reconciled_state st em)).1) ∧
      dlookup e drs = some (-ir.2 + (epoch_tropo cfg pos e s (reconciled_state st em)).2) := by
  rw [compute_channel_delays] at h
  exact channel_foldl_mem cfg pos em _ _ _ _ _ _ _ _ h hnd e s (dlookup_mem he)

theorem epoch_iono_enabled {cfg : SimConfig} (hi : cfg.is_ionosphere_simulated = true)
    (pos : Vec3) (e : String) (s : EmitterState) (r : TrackerState) {sig : Signals}
    (hsig : dlookup (casefold s.constellation) cfg.signals = some sig) :
    epoch_iono cfg pos e s r = some (new_iono_delay_of cfg pos s sig,
      (new_iono_delay_of cfg pos s sig - (dlookup e r.iono_delay).getD 0) / cfg.tsim) := by
  simp [epoch_iono, hi, hsig]

theorem epoch_tropo_enabled {cfg : SimConfig} (ht : cfg.is_troposphere_simulated = true)
    (pos : Vec3) (e : String) (s : EmitterState) (r : TrackerState) :
    epoch_tropo cfg pos e s r = (new_tropo_delay_of cfg pos s,
      (new_tropo_delay_of cfg pos s - (dlookup e r.tropo_delay).getD 0) / cfg.tsim) := by
  simp [epoch_tropo, ht]

theorem ccd_chain_not_visible (cfg : SimConfig) (e : String) :
    ∀ (gaps : List (Dict EmitterState × Vec3)) (st st' : TrackerState),
      gaps ≠ [] → (∀ ep ∈ gaps, e ∉ dkeys ep.1) →
      ccd_chain cfg gaps st = some st' →
      dlookup e st'.iono_delay = none ∧ dlookup e st'.tropo_delay = none ∧
      st'.drift_uninitialized = false := by
  intro gaps
  induction gaps with
  | nil => intro st st' hne; exact absurd rfl hne
  | cons ep rest ih =>
    intro st st' _ hnv h
    obtain ⟨em, pos⟩ := ep
    rw [ccd_chain.eq_def] at h
    dsimp only at h
    rcases hc : compute_channel_delays cfg st em pos with _ | acc
    · rw [hc] at h
      exact absurd h (by simp)
    · obtain ⟨st1, cds1, cas1, drs1⟩ := acc
      rw [hc] at h
      change ccd_chain cfg rest st1 = some st' at h
      cases rest with
      | nil =>
        rw [show ccd_chain cfg [] st1 = some st1 from rfl, Option.some.injEq] at h
        subst h
        have hkeys := compute_channel_delays_keys hc e
        have hnvh : e ∉ dkeys em := hnv (em, pos) (by simp)
        refine ⟨?_, ?_, compute_channel_delays_flag hc⟩
        · rw [dlookup_eq_none]
          intro hk
          exact hnvh (hkeys.1.mp hk)
        · rw [dlookup_eq_none]
          intro hk
          exact hnvh (hkeys.2.mp hk)
      | cons ep2 rest2 =>
        exact ih st1 st' (by simp) (fun x hx => hnv x (List.mem_cons_of_mem _ hx)) h

/-! ### Claim theorems -/

/-- Claim C2: at every epoch `__compute_channel_delays` performs set
reconciliation on both delay-state dicts before the per-emitter loop runs,
for every configuration (in particular whether or not the ionosphere and
troposphere models are enabled, since `reconciled_state` does not consult
the flags); after reconciliation each delay-state dict has key set exactly
the current visible emitters: entering emitters are seeded at `0.0`,
leaving emitters are removed. -/
theorem delay_state_reconciliation
    (cfg : SimConfig) (st : TrackerState) (em : Dict EmitterState) (pos : Vec3) :
    compute_channel_delays cfg st em pos
      = em.foldl (channel_step cfg pos) (some (reconciled_state st em, [], [], [])) ∧
    (∀ e, e ∈ dkeys (reconciled_state st em).iono_delay ↔ e ∈ dkeys em) ∧
    (∀ e, e ∈ dkeys (reconciled_state st em).tropo_delay ↔ e ∈ dkeys em) ∧
    (∀ e, e ∈ dkeys em → e ∉ dkeys st.iono_delay →
      dlookup e (reconciled_state st em).iono_delay = some 0) ∧
    (∀ e, e ∈ dkeys em → e ∉ dkeys st.tropo_delay →
      dlookup e (reconciled_state st em).tropo_delay = some 0) ∧
    (∀ e, e ∉ dkeys em → dlookup e (reconciled_state st em).iono_delay = none) ∧
    (∀ e, e ∉ dkeys em → dlookup e (reconciled_state st em).tropo_delay = none) := by
  refine ⟨rfl, ?_, ?_, ?_, ?_, ?_, ?_⟩
  · intro e
    rw [← dlookup_isSome, dlookup_reconciled_iono]
    by_cases hx : e ∈ dkeys em <;> simp [hx]
  · intro e
    rw [← dlookup_isSome, dlookup_reconciled_tropo]
    by_cases hx : e ∈ dkeys em <;> simp [hx]
  · intro e he hni
    rw [dlookup_reconciled_iono, if_pos he]
    cases hf : st.drift_uninitialized
    · simp [hf, (dlookup_eq_none e st.iono_delay).mpr hni]
    · simp [hf]
  · intro e he hnt
    rw [dlookup_reconciled_tropo, if_pos he]
    cases hf : st.drift_uninitialized
    · simp [hf, (dlookup_eq_none e st.tropo_delay).mpr hnt]
    · simp [hf]
  · intro e he
    rw [dlookup_reconciled_iono, if_neg he]
  · intro e he
    rw [dlookup_reconciled_tropo, if_neg he]

theorem delay_state_reconciliation_witness :
    dlookup "GPS1"
        (reconciled_state ⟨[("OLD", 3)], [("OLD", 4)], false⟩ [("GPS1", sA1)]).iono_delay
      = some 0 ∧
    dlookup "OLD"
        (reconciled_state ⟨[("OLD", 3)], [("OLD", 4)], false⟩ [("GPS1", sA1)]).iono_delay
      = none ∧
    dlookup "OLD"
        (reconciled_state ⟨[("OLD", 3)], [("OLD", 4)], false⟩ [("GPS1", sA1)]).tropo_delay
      = none := by
  have h := delay_state_reconciliation cfgB
    ⟨[("OLD", 3)], [("OLD", 4)], false⟩ [("GPS1", sA1)] (0, 0, 0)
  exact ⟨h.2.2.2.1 "GPS1" (by decide) (by decide),
         h.2.2.2.2.2.1 "OLD" (by decide),
         h.2.2.2.2.2.2 "OLD" (by decide)⟩

/-- Claim C4: for every visible emitter the tracker composes its outputs as
`code_delay = new_iono + new_tropo`, `carrier_delay = −new_iono + new_tropo`
and `drift = −iono_drift + tropo_drift`, the ionosphere entering code and
carrier with opposite signs (instantiated by the witness at
`new_iono = 10`, `new_tropo = 5`, giving `code_delay = 15` and
`carrier_delay = −5`). -/
theorem delay_composition
    (cfg : SimConfig) (st st' : TrackerState) (em : Dict EmitterState) (pos : Vec3)
    (cds cas drs : Dict ℚ) (e : String) (s : EmitterState) (sig : Signals)
    (hi : cfg.is_ionosphere_simulated = true)
    (ht : cfg.is_troposphere_simulated = true)
    (hnd : (dkeys em).Nodup)
    (h : compute_channel_delays cfg st em pos = some (st', cds, cas, drs))
    (he : dlookup e em = some s)
    (hsig : dlookup (casefold s.constellation) cfg.signals = some sig) :
    dlookup e cds = some (new_iono_delay_of cfg pos s sig + new_tropo_delay_of cfg pos s) ∧
    dlookup e cas = some (-new_iono_delay_of cfg pos s sig + new_tropo_delay_of cfg pos s) ∧
    dlookup e drs = some
      (-((new_iono_delay_of cfg pos s sig
            - (dlookup e (reconciled_state st em).iono_delay).getD 0) / cfg.tsim)
        + (new_tropo_delay_of cfg pos s
            - (dlookup e (reconciled_state st em).tropo_delay).getD 0) / cfg.tsim) := by
  obtain ⟨ir, hio, _, _, h3, h4, h5⟩ := compute_channel_delays_spec h hnd he
  rw [epoch_iono_enabled hi pos e s _ hsig] at hio
  rw [epoch_tropo_enabled ht pos e s _] at h3 h4 h5
  obtain rfl := Option.some.inj hio
  exact ⟨h3, h4, h5⟩

theorem delay_composition_witness :
    compute_channel_delays cfgC4 TrackerState.init [("GPS1", sA1)] (0, 0, 0)
      = some (⟨[("GPS1", 10)], [("GPS1", 5)], false⟩,
              [("GPS1", 15)], [("GPS1", -5)], [("GPS1", -5)]) ∧
    dlookup "GPS1" [("GPS1", (15 : ℚ))]
      = some (new_iono_delay_of cfgC4 (0, 0, 0) sA1 sigGPS
          + new_tropo_delay_of cfgC4 (0, 0, 0) sA1) ∧
    dlookup "GPS1" [("GPS1", (-5 : ℚ))]
      = some (-new_iono_delay_of cfgC4 (0, 0, 0) sA1 sigGPS
          + new_tropo_delay_of cfgC4 (0, 0, 0) sA1) := by
  have hcf : casefold "gps" = "gps" := by decide
  have hccd : compute_channel_delays cfgC4 TrackerState.init [("GPS1", sA1)] (0, 0, 0)
      = some (⟨[("GPS1", 10)], [("GPS1", 5)], false⟩,
              [("GPS1", 15)], [("GPS1", -5)], [("GPS1", -5)]) := by
    simp [compute_channel_delays, channel_step, epoch_iono, epoch_tropo,
          reconciled_state, update_emitters_in_period, dinsert, dremove, dlookup, dkeys,
          new_iono_delay_of, new_tropo_delay_of, SimConfig.tsim, cfgC4, cfgA, sA1,
          sigGPS, hcf, TrackerState.init]
    norm_num
  have h := delay_composition cfgC4 TrackerState.init _ [("GPS1", sA1)] (0, 0, 0)
    _ _ _ "GPS1" sA1 sigGPS rfl rfl (by decide) hccd (by decide) (by decide)
  exact ⟨hccd, h.1, h.2.1⟩

/-- Claim C1: for an emitter visible at two consecutive epochs with both
atmosphere models enabled, the per-source drift at the second epoch is the
backward finite difference `(delay(k+1) − delay(k)) / step` against the
stored previous delay, and the stored delay is overwritten (not
accumulated); on an emitter's first visible epoch the stored baseline is
the `0.0` seed, yielding the one-epoch transient drift `new_delay / step`. -/
theorem drift_backward_difference
    (cfg : SimConfig) (st0 st1 st2 : TrackerState)
    (em1 em2 : Dict EmitterState) (pos1 pos2 : Vec3)
    (cds1 cas1 drs1 cds2 cas2 drs2 : Dict ℚ)
    (e : String) (s1 s2 : EmitterState) (sig1 sig2 : Signals)
    (hi : cfg.is_ionosphere_simulated = true)
    (ht : cfg.is_troposphere_simulated = true)
    (hnd1 : (dkeys em1).Nodup) (hnd2 : (dkeys em2).Nodup)
    (h1 : compute_channel_delays cfg st0 em1 pos1 = some (st1, cds1, cas1, drs1))
    (h2 : compute_channel_delays cfg st1 em2 pos2 = some (st2, cds2, cas2, drs2))
    (he1 : dlookup e em1 = some s1) (he2 : dlookup e em2 = some s2)
    (hs1 : dlookup (casefold s1.constellation) cfg.signals = some sig1)
    (hs2 : dlookup (casefold s2.constellation) cfg.signals = some sig2) :
    dlookup e st1.iono_delay = some (new_iono_delay_of cfg pos1 s1 sig1) ∧
    dlookup e st1.tropo_delay = some (new_tropo_delay_of cfg pos1 s1) ∧
    dlookup e st2.iono_delay = some (new_iono_delay_of cfg pos2 s2 sig2) ∧
    dlookup e st2.tropo_delay = some (new_tropo_delay_of cfg pos2 s2) ∧
    dlookup e drs2 = some
      (-((new_iono_delay_of cfg pos2 s2 sig2 - new_iono_delay_of cfg pos1 s1 sig1)
          / cfg.tsim)
        + (new_tropo_delay_of cfg pos2 s2 - new_tropo_delay_of cfg pos1 s1)
          / cfg.tsim) ∧
    ((st0.drift_uninitialized = true ∨
        (e ∉ dkeys st0.iono_delay ∧ e ∉ dkeys st0.tropo_delay)) →
      dlookup e drs1 = some
        (-(new_iono_delay_of cfg pos1 s1 sig1 / cfg.tsim)
          + new_tropo_delay_of cfg pos1 s1 / cfg.tsim)) := by
  obtain ⟨ir1, hio1, hst1i, hst1t, _, _, hd1⟩ := compute_channel_delays_spec h1 hnd1 he1
  rw [epoch_iono_enabled hi pos1 e s1 _ hs1] at hio1
  rw [epoch_tropo_enabled ht pos1 e s1 _] at hst1t hd1
  obtain rfl := Option.some.inj hio1
  obtain ⟨ir2, hio2, hst2i, hst2t, _, _, hd2⟩ := compute_channel_delays_spec h2 hnd2 he2
  rw [epoch_iono_enabled hi pos2 e s2 _ hs2] at hio2
  rw [epoch_tropo_enabled ht pos2 e s2 _] at hst2t hd2
  obtain rfl := Option.some.inj hio2
  have he2k : e ∈ dkeys em2 := mem_dkeys_of_dlookup he2
  have hflag1 : st1.drift_uninitialized = false := compute_channel_delays_flag h1
  have hri2 : dlookup e (reconciled_state st1 em2).iono_delay
      = some (new_iono_delay_of cfg pos1 s1 sig1) := by
    rw [dlookup_reconciled_iono, if_pos he2k, hflag1]
    simp [hst1i]
  have hrt2 : dlookup e (reconciled_state st1 em2).tropo_delay
      = some (new_tropo_delay_of cfg pos1 s1) := by
    rw [dlookup_reconciled_tropo, if_pos he2k, hflag1]
    simp [hst1t]
  rw [hri2] at hd2
  rw [hrt2] at hd2
  refine ⟨hst1i, hst1t, hst2i, hst2t, by simpa using hd2, ?_⟩
  intro h0
  have he1k : e ∈ dkeys em1 := mem_dkeys_of_dlookup he1
  have hri1 : dlookup e (reconciled_state st0 em1).iono_delay = some 0 := by
    rw [dlookup_reconciled_iono, if_pos he1k]
    rcases h0 with h0 | ⟨h0i, _⟩
    · simp [h0]
    · cases hf : st0.drift_uninitialized
      · simp [hf, (dlookup_eq_none _ _).mpr h0i]
      · simp [hf]
  have hrt1 : dlookup e (reconciled_state st0 em1).tropo_delay = some 0 := by
    rw [dlookup_reconciled_tropo, if_pos he1k]
    rcases h0 with h0 | ⟨_, h0t⟩
    · simp [h0]
    · cases hf : st0.drift_uninitialized
      · simp [hf, (dlookup_eq_none _ _).mpr h0t]
      · simp [hf]
  rw [hri1, hrt1] at hd1
  simpa [Option.getD_some, sub_zero] using hd1

theorem drift_backward_difference_witness :
    compute_channel_delays cfgA TrackerState.init [("GPS1", sA1)] (0, 0, 0)
      = some (⟨[("GPS1", 0)], [("GPS1", 5)], false⟩,
              [("GPS1", 5)], [("GPS1", 5)], [("GPS1", 5)]) ∧
    compute_channel_delays cfgA ⟨[("GPS1", 0)], [("GPS1", 5)], false⟩
        [("GPS1", sA2)] (0, 0, 0)
      = some (⟨[("GPS1", 3)], [("GPS1", 5)], false⟩,
              [("GPS1", 8)], [("GPS1", 2)], [("GPS1", -3)]) ∧
    dlookup "GPS1" [("GPS1", (-3 : ℚ))] = some
      (-((new_iono_delay_of cfgA (0, 0, 0) sA2 sigGPS
            - new_iono_delay_of cfgA (0, 0, 0) sA1 sigGPS) / cfgA.tsim)
        + (new_tropo_delay_of cfgA (0, 0, 0) sA2
            - new_tropo_delay_of cfgA (0, 0, 0) sA1) / cfgA.tsim) := by
  have hcf : casefold "gps" = "gps" := by decide
  have hccd1 : compute_channel_delays cfgA TrackerState.init [("GPS1", sA1)] (0, 0, 0)
      = some (⟨[("GPS1", 0)], [("GPS1", 5)], false⟩,
              [("GPS1", 5)], [("GPS1", 5)], [("GPS1", 5)]) := by
    simp [compute_channel_delays, channel_step, epoch_iono, epoch_tropo,
          reconciled_state, update_emitters_in_period, dinsert, dremove, dlookup, dkeys,
          new_iono_delay_of, new_tropo_delay_of, SimConfig.tsim, cfgA, sA1,
          sigGPS, hcf, TrackerState.init]
  have hccd2 : compute_channel_delays cfgA ⟨[("GPS1", 0)], [("GPS1", 5)], false⟩
        [("GPS1", sA2)] (0, 0, 0)
      = some (⟨[("GPS1", 3)], [("GPS1", 5)], false⟩,
              [("GPS1", 8)], [("GPS1", 2)], [("GPS1", -3)]) := by
    simp [compute_channel_delays, channel_step, epoch_iono, epoch_tropo,
          reconciled_state, update_emitters_in_period, dinsert, dremove, dlookup, dkeys,
          new_iono_delay_of, new_tropo_delay_of, SimConfig.tsim, cfgA, sA1, sA2,
          sigGPS, hcf, TrackerState.init]
    norm_num
  have h := drift_backward_difference cfgA TrackerState.init
    ⟨[("GPS1", 0)], [("GPS1", 5)], false⟩ ⟨[("GPS1", 3)], [("GPS1", 5)], false⟩
    [("GPS1", sA1)] [("GPS1", sA2)] (0, 0, 0) (0, 0, 0)
    [("GPS1", 5)] [("GPS1", 5)] [("GPS1", 5)] [("GPS1", 8)] [("GPS1", 2)] [("GPS1", -3)]
    "GPS1" sA1 sA2 sigGPS sigGPS rfl rfl (by decide) (by decide) hccd1 hccd2
    (by decide) (by decide) (by decide) (by decide)
  exact ⟨hccd1, hccd2, h.2.2.2.2.1⟩

/-- Claim C3: if an emitter is visible at epoch `k` (so its delay is
stored), out of view for the following `m−1 ≥ 1` epochs, and visible again
at epoch `k+m`, then its delay-state entries are removed while it is out of
view and the drift computed at re-entry uses the re-seeded `0.0` baseline,
not the delay stored at epoch `k`. -/
theorem churn_reset
    (cfg : SimConfig) (st0 stk stg st2 : TrackerState)
    (emk em2 : Dict EmitterState) (posk pos2 : Vec3)
    (cdsk cask drsk cds cas drs : Dict ℚ)
    (gaps : List (Dict EmitterState × Vec3))
    (e : String) (s : EmitterState) (sig : Signals)
    (hi : cfg.is_ionosphere_simulated = true)
    (ht : cfg.is_troposphere_simulated = true)
    (hk : compute_channel_delays cfg st0 emk posk = some (stk, cdsk, cask, drsk))
    (hek : e ∈ dkeys emk)
    (hgne : gaps ≠ [])
    (hgap : ∀ ep ∈ gaps, e ∉ dkeys ep.1)
    (hchain : ccd_chain cfg gaps stk = some stg)
    (hnd2 : (dkeys em2).Nodup)
    (hre : compute_channel_delays cfg stg em2 pos2 = some (st2, cds, cas, drs))
    (he2 : dlookup e em2 = some s)
    (hsig : dlookup (casefold s.constellation) cfg.signals = some sig) :
    e ∈ dkeys stk.iono_delay ∧ e ∈ dkeys stk.tropo_delay ∧
    dlookup e stg.iono_delay = none ∧ dlookup e stg.tropo_delay = none ∧
    dlookup e drs = some
      (-((new_iono_delay_of cfg pos2 s sig - 0) / cfg.tsim)
        + (new_tropo_delay_of cfg pos2 s - 0) / cfg.tsim) := by
  have hkk := compute_channel_delays_keys hk e
  obtain ⟨hgi, hgt, hgflag⟩ := ccd_chain_not_visible cfg e gaps stk stg hgne hgap hchain
  obtain ⟨ir, hio, _, _, _, _, hd⟩ := compute_channel_delays_spec hre hnd2 he2
  rw [epoch_iono_enabled hi pos2 e s _ hsig] at hio
  rw [epoch_tropo_enabled ht pos2 e s _] at hd
  obtain rfl := Option.some.inj hio
  have he2k : e ∈ dkeys em2 := mem_dkeys_of_dlookup he2
  have hr : dlookup e (reconciled_state stg em2).iono_delay = some 0 := by
    rw [dlookup_reconciled_iono, if_pos he2k, hgflag]
    simp [hgi]
  have hrt : dlookup e (reconciled_state stg em2).tropo_delay = some 0 := by
    rw [dlookup_reconciled_tropo, if_pos he2k, hgflag]
    simp [hgt]
  rw [hr, hrt] at hd
  exact ⟨hkk.1.mpr hek, hkk.2.mpr hek, hgi, hgt, by simpa using hd⟩

theorem churn_reset_witness :
    compute_channel_delays cfgA TrackerState.init [("GPS1", sA1)] (0, 0, 0)
      = some (⟨[("GPS1", 0)], [("GPS1", 5)], false⟩,
              [("GPS1", 5)], [("GPS1", 5)], [("GPS1", 5)]) ∧
    ccd_chain cfgA [([], (0, 0, 0))] ⟨[("GPS1", 0)], [("GPS1", 5)], false⟩
      = some ⟨[], [], false⟩ ∧
    compute_channel_delays cfgA ⟨[], [], false⟩ [("GPS1", sA2)] (0, 0, 0)
      = some (⟨[("GPS1", 3)], [("GPS1", 5)], false⟩,
              [("GPS1", 8)], [("GPS1", 2)], [("GPS1", 2)]) ∧
    dlookup "GPS1" ([] : Dict ℚ) = none ∧
    dlookup "GPS1" [("GPS1", (2 : ℚ))] = some
      (-((new_iono_delay_of cfgA (0, 0, 0) sA2 sigGPS - 0) / cfgA.tsim)
        + (new_tropo_delay_of cfgA (0, 0, 0) sA2 - 0) / cfgA.tsim) := by
  have hcf : casefold "gps" = "gps" := by decide
  have hccd1 : compute_channel_delays cfgA TrackerState.init [("GPS1", sA1)] (0, 0, 0)
      = some (⟨[("GPS1", 0)], [("GPS1", 5)], false⟩,
              [("GPS1", 5)], [("GPS1", 5)], [("GPS1", 5)]) := by
    simp [compute_channel_delays, channel_step, epoch_iono, epoch_tropo,
          reconciled_state, update_emitters_in_period, dinsert, dremove, dlookup, dkeys,
          new_iono_delay_of, new_tropo_delay_of, SimConfig.tsim, cfgA, sA1,
          sigGPS, hcf, TrackerState.init]
  have hgapccd : compute_channel_delays cfgA ⟨[("GPS1", 0)], [("GPS1", 5)], false⟩
        ([] : Dict EmitterState) (0, 0, 0)
      = some (⟨[], [], false⟩, [], [], []) := by
    simp [compute_channel_delays, reconciled_state, update_emitters_in_period,
          dinsert, dremove, dlookup, dkeys]
  have hchain : ccd_chain cfgA [([], (0, 0, 0))] ⟨[("GPS1", 0)], [("GPS1", 5)], false⟩
      = some ⟨[], [], false⟩ := by
    rw [ccd_chain.eq_def]
    dsimp only
    rw [hgapccd]
    rfl
  have hccd3 : compute_channel_delays cfgA ⟨[], [], false⟩ [("GPS1", sA2)] (0, 0, 0)
      = some (⟨[("GPS1", 3)], [("GPS1", 5)], false⟩,
              [("GPS1", 8)], [("GPS1", 2)], [("GPS1", 2)]) := by
    simp [compute_channel_delays, channel_step, epoch_iono, epoch_tropo,
          reconciled_state, update_emitters_in_period, dinsert, dremove, dlookup, dkeys,
          new_iono_delay_of, new_tropo_delay_of, SimConfig.tsim, cfgA, sA1, sA2,
          sigGPS, hcf]
    norm_num
  have h := churn_reset cfgA TrackerState.init ⟨[("GPS1", 0)], [("GPS1", 5)], false⟩
    ⟨[], [], false⟩ ⟨[("GPS1", 3)], [("GPS1", 5)], false⟩
    [("GPS1", sA1)] [("GPS1", sA2)] (0, 0, 0) (0, 0, 0)
    [("GPS1", 5)] [("GPS1", 5)] [("GPS1", 5)] [("GPS1", 8)] [("GPS1", 2)] [("GPS1", 2)]
    [([], (0, 0, 0))] "GPS1" sA2 sigGPS rfl rfl hccd1 (by decide) (by decide)
    (by intro ep hep; rw [List.mem_singleton] at hep; subst hep; simp) hchain (by decide) hccd3
    (by decide) (by decide)
  exact ⟨hccd1, hchain, hccd3, h.2.2.1, h.2.2.2.2⟩

/-! ### Observable loop lemmas -/

theorem observables_step_some (cfg : SimConfig) (cds cas drs : Dict ℚ)
    (cb cd : ℚ) (noise : ℕ → ℚ) (obs : Dict Observables) (k : ℕ)
    (p : String × EmitterState) :
    observables_step cfg cds cas drs cb cd noise (some (obs, k)) p
      = (dlookup (casefold p.2.constellation) cfg.signals).map fun signal =>
          (dinsert p.1 (observable_of cfg p.1 p.2 signal cds cas drs cb cd
            (noise k) (noise (k + 1)) (noise (k + 2))) obs, k + 3) := by
  rcases h : dlookup (casefold p.2.constellation) cfg.signals with _ | sig <;>
    simp [observables_step, h]

theorem observables_foldl_none (cfg : SimConfig) (cds cas drs : Dict ℚ)
    (cb cd : ℚ) (noise : ℕ → ℚ) :
    ∀ L : Dict EmitterState,
      L.foldl (observables_step cfg cds cas drs cb cd noise) none = none := by
  intro L
  induction L with
  | nil => rfl
  | cons p L' ih => rw [List.foldl_cons]; exact ih

theorem observables_foldl_missing (cfg : SimConfig) (cds cas drs : Dict ℚ)
    (cb cd : ℚ) (noise : ℕ → ℚ) :
    ∀ (L : Dict EmitterState) (acc : Option ObsAcc) (e : String) (s : EmitterState),
      (e, s) ∈ L → dlookup (casefold s.constellation) cfg.signals = none →
      L.foldl (observables_step cfg cds cas drs cb cd noise) acc = none := by
  intro L
  induction L with
  | nil => intro acc e s hmem; exact absurd hmem (by simp)
  | cons p L' ih =>
    intro acc e s hmem hmiss
    rw [List.foldl_cons]
    rcases List.mem_cons.mp hmem with hps | hmem'
    · have hstep : observables_step cfg cds cas drs cb cd noise acc p = none := by
        rcases acc with _ | ⟨obs, k⟩
        · rfl
        · rw [observables_step_some,
              show p.2 = s from (congrArg Prod.snd hps).symm, hmiss]
          rfl
      rw [hstep, observables_foldl_none]
    · exact ih _ e s hmem' hmiss

theorem observables_foldl_untouched (cfg : SimConfig) (cds cas drs : Dict ℚ)
    (cb cd : ℚ) (noise : ℕ → ℚ) :
    ∀ (L : Dict EmitterState) (obs : Dict Observables) (k : ℕ)
      (obs' : Dict Observables) (k' : ℕ),
      L.foldl (observables_step cfg cds cas drs cb cd noise) (some (obs, k))
        = some (obs', k') →
      ∀ e, e ∉ dkeys L → dlookup e obs' = dlookup e obs := by
  intro L
  induction L with
  | nil =>
    intro obs k obs' k' h e _
    simp only [List.foldl_nil, Option.some.injEq, Prod.mk.injEq] at h
    rw [← h.1]
  | cons p L' ih =>
    intro obs k obs' k' h e he
    rw [List.foldl_cons, observables_step_some] at h
    rcases hsig : dlookup (casefold p.2.constellation) cfg.signals with _ | sig
    · rw [hsig] at h
      simp only [Option.map_none'] at h
      rw [observables_foldl_none] at h
      exact absurd h (by simp)
    · rw [hsig] at h
      simp only [Option.map_some'] at h
      have hne : e ≠ p.1 := fun hc => he (by simp [hc])
      have heL : e ∉ dkeys L' := fun hc => he (by simp [hc])
      have h1 := ih _ _ _ _ h e heL
      rw [dlookup_dinsert_ne _ _ hne] at h1
      exact h1

theorem observables_foldl_mem (cfg : SimConfig) (cds cas drs : Dict ℚ)
    (cb cd : ℚ) (noise : ℕ → ℚ) :
    ∀ (L : Dict EmitterState) (obs : Dict Observables) (k : ℕ)
      (obs' : Dict Observables) (k' : ℕ),
      L.foldl (observables_step cfg cds cas drs cb cd noise) (some (obs, k))
        = some (obs', k') →
      (dkeys L).Nodup →
      ∀ e s, (e, s) ∈ L →
        ∃ sig j, dlookup (casefold s.constellation) cfg.signals = some sig ∧
          dlookup e obs' = some (observable_of cfg e s sig cds cas drs cb cd
            (noise j) (noise (j + 1)) (noise (j + 2))) := by
  intro L
  induction L with
  | nil =>
    intro obs k obs' k' _ _ e s hmem
    exact absurd hmem (by simp)
  | cons p L' ih =>
    intro obs k obs' k' h hnd e s hmem
    rw [List.foldl_cons, observables_step_some] at h
    rcases hsig : dlookup (casefold p.2.constellation) cfg.signals with _ | sig
    · rw [hsig] at h
      simp only [Option.map_none'] at h
      rw [observables_foldl_none] at h
      exact absurd h (by simp)
    · rw [hsig] at h
      simp only [Option.map_some'] at h
      have hnd' : (dkeys L').Nodup := (List.nodup_cons.mp (by simpa using hnd)).2
      have hpL' : p.1 ∉ dkeys L' := (List.nodup_cons.mp (by simpa using hnd)).1
      rcases List.mem_cons.mp hmem with hps | hmem'
      · have hep : e = p.1 := congrArg Prod.fst hps
        have hsp : s = p.2 := congrArg Prod.snd hps
        subst hep; subst hsp
        have h1 := observables_foldl_untouched cfg cds cas drs cb cd noise
          L' _ _ _ _ h p.1 hpL'
        rw [dlookup_dinsert_self] at h1
        exact ⟨sig, k, hsig, h1⟩
      · exact ih _ _ _ _ h hnd' e s hmem'

theorem compute_observables_spec {cfg : SimConfig} {em : Dict EmitterState}
    {cds cas drs : Dict ℚ} {cb cd : ℚ} {noise : ℕ → ℚ} {k : ℕ}
    {obs : Dict Observables} {k' : ℕ}
    (h : compute_observables cfg em cds cas drs cb cd noise k = some (obs, k'))
    (hnd : (dkeys em).Nodup) {e : String} {s : EmitterState}
    (he : dlookup e em = some s) :
    ∃ sig j, dlookup (casefold s.constellation) cfg.signals = some sig ∧
      dlookup e obs = some (observable_of cfg e s sig cds cas drs cb cd
        (noise j) (noise (j + 1)) (noise (j + 2))) := by
  rw [compute_observables] at h
  exact observables_foldl_mem cfg cds cas drs cb cd noise em _ _ _ _ h hnd e s
    (dlookup_mem he)

theorem compute_observables_missing {cfg : SimConfig} {em : Dict EmitterState}
    (cds cas drs : Dict ℚ) (cb cd : ℚ) (noise : ℕ → ℚ) (k : ℕ)
    {e : String} {s : EmitterState} (he : (e, s) ∈ em)
    (hmiss : dlookup (casefold s.constellation) cfg.signals = none) :
    compute_observables cfg em cds cas drs cb cd noise k = none := by
  rw [compute_observables]
  exact observables_foldl_missing cfg cds cas drs cb cd noise em _ e s he hmiss

theorem observable_of_sigma_zero {cfg : SimConfig}
    (h1 : cfg.pseudorange_awgn_sigma = 0) (h2 : cfg.carr_psr_awgn_sigma = 0)
    (h3 : cfg.pseudorange_rate_awgn_sigma = 0)
    (e : String) (s : EmitterState) (sig : Signals) (cds cas drs : Dict ℚ)
    (cb cd : ℚ) (n1 n2 n3 n1' n2' n3' : ℚ) :
    observable_of cfg e s sig cds cas drs cb cd n1 n2 n3
      = observable_of cfg e s sig cds cas drs cb cd n1' n2' n3' := by
  simp [observable_of, h1, h2, h3]

theorem observable_of_noiseless {cfg : SimConfig}
    (h1 : cfg.pseudorange_awgn_sigma = 0) (h2 : cfg.carr_psr_awgn_sigma = 0)
    (h3 : cfg.pseudorange_rate_awgn_sigma = 0)
    (e : String) (s : EmitterState) (sig : Signals) (cds cas drs : Dict ℚ)
    (cb cd : ℚ) (n1 n2 n3 : ℚ) :
    observable_of cfg e s sig cds cas drs cb cd n1 n2 n3 =
      { code_pseudorange := s.range + (dlookup e cds).getD 0 + cb,
        carrier_pseudorange := s.range + (dlookup e cas).getD 0 + cb,
        pseudorange_rate := s.range_rate + (dlookup e drs).getD 0 + cd,
        carrier_doppler := -(s.range_rate + (dlookup e drs).getD 0 + cd)
          * sig.properties.fcarrier / SPEED_OF_LIGHT,
        cn0 := cfg.compute_carrier_to_noise s.range sig.properties.transmit_power
          sig.properties.transmit_antenna_gain sig.properties.fcarrier sig.js } := by
  simp [observable_of, h1, h2, h3]

theorem compute_observables_noise {cfg : SimConfig}
    (h1 : cfg.pseudorange_awgn_sigma = 0) (h2 : cfg.carr_psr_awgn_sigma = 0)
    (h3 : cfg.pseudorange_rate_awgn_sigma = 0)
    (em : Dict EmitterState) (cds cas drs : Dict ℚ) (cb cd : ℚ)
    (noise noise2 : ℕ → ℚ) (k : ℕ) :
    compute_observables cfg em cds cas drs cb cd noise k
      = compute_observables cfg em cds cas drs cb cd noise2 k := by
  rw [compute_observables, compute_observables]
  suffices hs : ∀ (L : Dict EmitterState) (acc : Option ObsAcc),
      L.foldl (observables_step cfg cds cas drs cb cd noise) acc
        = L.foldl (observables_step cfg cds cas drs cb cd noise2) acc from hs em _
  intro L
  induction L with
  | nil => intro acc; rfl
  | cons p L' ih =>
    intro acc
    rw [List.foldl_cons, List.foldl_cons]
    have hstep : observables_step cfg cds cas drs cb cd noise acc p
        = observables_step cfg cds cas drs cb cd noise2 acc p := by
      rcases acc with _ | ⟨obs, k0⟩
      · rfl
      · rw [observables_step_some, observables_step_some]
        exact Option.map_congr fun sig _ => by
          rw [observable_of_sigma_zero h1 h2 h3]
    rw [hstep, ih]

/-- The defining equation of the epoch loop on a non-empty epoch list. -/
theorem run_epochs_cons (cfg : SimConfig) (noise : ℕ → ℚ) (posL : List Vec3)
    (cbL cdL : List ℚ) (em : Dict EmitterState) (rest : List (Dict EmitterState))
    (st : TrackerState) (k period : ℕ) :
    run_epochs cfg noise posL cbL cdL (em :: rest) st k period
      = match nth posL period with
        | none => ([], true)
        | some pos =>
          match compute_channel_delays cfg st em pos with
          | none => ([], true)
          | some (st', code_delays, carrier_delays, drifts) =>
            match nth cbL period, nth cdL period with
            | some cb, some cd =>
              match compute_observables cfg em code_delays carrier_delays drifts
                  cb cd noise k with
              | none => ([], true)
              | some (obs, k') =>
                let r := run_epochs cfg noise posL cbL cdL rest st' k' (period + 1)
                (obs :: r.1, r.2)
            | _, _ => ([], true)
        := rfl

theorem run_epochs_err_of_missing (cfg : SimConfig) (noise : ℕ → ℚ)
    (posL : List Vec3) (cbL cdL : List ℚ) :
    ∀ (epochs : List (Dict EmitterState)) (st : TrackerState) (k period : ℕ),
      (∃ em ∈ epochs, ∃ p ∈ em,
        dlookup (casefold (p : String × EmitterState).2.constellation) cfg.signals = none) →
      (run_epochs cfg noise posL cbL cdL epochs st k period).2 = true := by
  intro epochs
  induction epochs with
  | nil =>
    intro st k period h
    rcases h with ⟨em, hem, _⟩
    exact absurd hem (by simp)
  | cons em0 rest ih =>
    intro st k period hbad
    rw [run_epochs_cons]
    rcases hbad with ⟨em, hem, p, hp, hmiss⟩
    rcases hpos : nth posL period with _ | pos
    · rfl
    · dsimp only
      rcases List.mem_cons.mp hem with rfl | hem'
      · rcases hccd : compute_channel_delays cfg st em pos with _ | ⟨st2, cds, cas, drs⟩
        · rfl
        · dsimp only
          rcases hcb : nth cbL period with _ | cb
          · rfl
          · rcases hcd : nth cdL period with _ | cd
            · rfl
            · dsimp only
              rw [compute_observables_missing cds cas drs cb cd noise k hp hmiss]
      · rcases hccd : compute_channel_delays cfg st em0 pos with _ | ⟨st2, cds, cas, drs⟩
        · rfl
        · dsimp only
          rcases hcb : nth cbL period with _ | cb
          · rfl
          · rcases hcd : nth cdL period with _ | cd
            · rfl
            · dsimp only
              rcases hco : compute_observables cfg em0 cds cas drs cb cd noise k
                  with _ | ⟨obs, k2⟩
              · rfl
              · dsimp only
                exact ih st2 k2 (period + 1) ⟨em, hem', p, hp, hmiss⟩

theorem run_epochs_noise {cfg : SimConfig}
    (h1 : cfg.pseudorange_awgn_sigma = 0) (h2 : cfg.carr_psr_awgn_sigma = 0)
    (h3 : cfg.pseudorange_rate_awgn_sigma = 0)
    (noise noise2 : ℕ → ℚ) (posL : List Vec3) (cbL cdL : List ℚ) :
    ∀ (epochs : List (Dict EmitterState)) (st : TrackerState) (k period : ℕ),
      run_epochs cfg noise posL cbL cdL epochs st k period
        = run_epochs cfg noise2 posL cbL cdL epochs st k period := by
  intro epochs
  induction epochs with
  | nil => intro st k period; rfl
  | cons em rest ih =>
    intro st k period
    rw [run_epochs_cons, run_epochs_cons]
    rcases hpos : nth posL period with _ | pos
    · rfl
    · dsimp only
      rcases hccd : compute_channel_delays cfg st em pos with _ | ⟨st2, cds, cas, drs⟩
      · rfl
      · dsimp only
        rcases hcb : nth cbL period with _ | cb
        · rfl
        · rcases hcd : nth cdL period with _ | cd
          · rfl
          · dsimp only
            rw [compute_observables_noise h1 h2 h3 em cds cas drs cb cd noise noise2 k]
            rcases hco : compute_observables cfg em cds cas drs cb cd noise2 k
                with _ | ⟨obs, k2⟩
            · rfl
            · dsimp only
              rw [ih st2 k2 (period + 1)]

theorem simulate_noise {cfg : SimConfig}
    (h1 : cfg.pseudorange_awgn_sigma = 0) (h2 : cfg.carr_psr_awgn_sigma = 0)
    (h3 : cfg.pseudorange_rate_awgn_sigma = 0)
    (rx_pos : List Vec3) (rx_vel : Option (List Vec3))
    (ems : List (Dict EmitterState)) (noise noise2 : ℕ → ℚ) :
    simulate cfg rx_pos rx_vel ems noise = simulate cfg rx_pos rx_vel ems noise2 := by
  rw [simulate, simulate]
  rcases hrx : simulate_receiver_states cfg rx_pos rx_vel with _ | rx
  · rfl
  · simp only [Option.some_bind]
    rw [run_epochs_noise h1 h2 h3 noise noise2]

/-- Claim C6: with all three noise sigmas `0.0` the synthesized observables
equal their noiseless formulas exactly (`code_pseudorange = range +
code_delay + clock_bias`, `carrier_pseudorange = range + carrier_delay +
clock_bias`, `pseudorange_rate = range_rate + drift + clock_drift`), so the
epoch loop and the whole `simulate` run are independent of the random draw
stream: two runs over identical configuration, receiver states and emitter
states produce identical observable sequences. -/
theorem noiseless_determinism (cfg : SimConfig)
    (h1 : cfg.pseudorange_awgn_sigma = 0) (h2 : cfg.carr_psr_awgn_sigma = 0)
    (h3 : cfg.pseudorange_rate_awgn_sigma = 0) :
    (∀ (em : Dict EmitterState) (cds cas drs : Dict ℚ) (cb cd : ℚ)
      (noise : ℕ → ℚ) (k : ℕ) (obs : Dict Observables) (k' : ℕ),
      (dkeys em).Nodup →
      compute_observables cfg em cds cas drs cb cd noise k = some (obs, k') →
      ∀ e s sig, dlookup e em = some s →
        dlookup (casefold s.constellation) cfg.signals = some sig →
        dlookup e obs = some
          { code_pseudorange := s.range + (dlookup e cds).getD 0 + cb,
            carrier_pseudorange := s.range + (dlookup e cas).getD 0 + cb,
            pseudorange_rate := s.range_rate + (dlookup e drs).getD 0 + cd,
            carrier_doppler := -(s.range_rate + (dlookup e drs).getD 0 + cd)
              * sig.properties.fcarrier / SPEED_OF_LIGHT,
            cn0 := cfg.compute_carrier_to_noise s.range sig.properties.transmit_power
              sig.properties.transmit_antenna_gain sig.properties.fcarrier sig.js }) ∧
    (∀ (noise noise2 : ℕ → ℚ) (posL : List Vec3) (cbL cdL : List ℚ)
      (epochs : List (Dict EmitterState)) (st : TrackerState) (k period : ℕ),
      run_epochs cfg noise posL cbL cdL epochs st k period
        = run_epochs cfg noise2 posL cbL cdL epochs st k period) ∧
    (∀ (rx_pos : List Vec3) (rx_vel : Option (List Vec3))
      (ems : List (Dict EmitterState)) (noise noise2 : ℕ → ℚ),
      simulate cfg rx_pos rx_vel ems noise = simulate cfg rx_pos rx_vel ems noise2) := by
  refine ⟨?_, ?_, ?_⟩
  · intro em cds cas drs cb cd noise k obs k' hnd hco e s sig he hsig
    obtain ⟨sig', j, hsig', hobs⟩ := compute_observables_spec hco hnd he
    obtain rfl : sig = sig' := by
      rw [hsig] at hsig'
      exact Option.some.inj hsig'
    rw [observable_of_noiseless h1 h2 h3] at hobs
    exact hobs
  · intro noise noise2 posL cbL cdL epochs st k period
    exact run_epochs_noise h1 h2 h3 noise noise2 posL cbL cdL epochs st k period
  · intro rx_pos rx_vel ems noise noise2
    exact simulate_noise h1 h2 h3 rx_pos rx_vel ems noise noise2

theorem noiseless_determinism_witness :
    simulate cfgB [(0, 0, 0)] none [[("GPS1", sA1)]] (fun i => (i : ℚ))
      = simulate cfgB [(0, 0, 0)] none [[("GPS1", sA1)]] (fun _ => 37) :=
  (noiseless_determinism cfgB rfl rfl rfl).2.2 [(0, 0, 0)] none
    [[("GPS1", sA1)]] (fun i => (i : ℚ)) (fun _ => 37)

/-- Claim C9: every synthesized observable satisfies
`carrier_doppler = −pseudorange_rate · fcarrier / c` with the carrier
frequency taken from the emitter's constellation descriptor; consequently a
closing emitter (`range_rate < 0`) with zero drift, zero clock drift and
zero rate-noise sigma has `carrier_doppler > 0` (for a positive carrier
frequency). -/
theorem doppler_sign
    (cfg : SimConfig) (em : Dict EmitterState) (cds cas drs : Dict ℚ)
    (cb cd : ℚ) (noise : ℕ → ℚ) (k : ℕ) (obs : Dict Observables) (k' : ℕ)
    (e : String) (s : EmitterState) (sig : Signals)
    (hnd : (dkeys em).Nodup)
    (h : compute_observables cfg em cds cas drs cb cd noise k = some (obs, k'))
    (he : dlookup e em = some s)
    (hsig : dlookup (casefold s.constellation) cfg.signals = some sig) :
    (dlookup e obs).isSome ∧
    (∀ o, dlookup e obs = some o →
      o.carrier_doppler = -o.pseudorange_rate * sig.properties.fcarrier
        / SPEED_OF_LIGHT) ∧
    (∀ o, dlookup e obs = some o →
      s.range_rate < 0 → (dlookup e drs).getD 0 = 0 → cd = 0 →
      cfg.pseudorange_rate_awgn_sigma = 0 → 0 < sig.properties.fcarrier →
      0 < o.carrier_doppler) := by
  obtain ⟨sig', j, hsig', hobs⟩ := compute_observables_spec h hnd he
  obtain rfl : sig = sig' := by
    rw [hsig] at hsig'
    exact Option.some.inj hsig'
  refine ⟨by rw [hobs]; rfl, ?_, ?_⟩
  · intro o ho
    rw [hobs] at ho
    obtain rfl : observable_of cfg e s sig cds cas drs cb cd (noise j)
        (noise (j + 1)) (noise (j + 2)) = o := Option.some.inj ho
    rfl
  · intro o ho hrr hdr hcd hs3 hf
    rw [hobs] at ho
    obtain rfl : observable_of cfg e s sig cds cas drs cb cd (noise j)
        (noise (j + 1)) (noise (j + 2)) = o := Option.some.inj ho
    have hdop : (observable_of cfg e s sig cds cas drs cb cd (noise j)
        (noise (j + 1)) (noise (j + 2))).carrier_doppler
        = -s.range_rate * sig.properties.fcarrier / SPEED_OF_LIGHT := by
      simp [observable_of, hdr, hcd, hs3]
    rw [hdop]
    apply div_pos
    · exact mul_pos (by linarith) hf
    · norm_num [SPEED_OF_LIGHT]

theorem doppler_sign_witness :
    compute_observables cfgB [("GPS1", sA1)] [("GPS1", 0)] [("GPS1", 0)] [("GPS1", 0)]
        0 0 noise0 0 = some ([("GPS1", obsW)], 3) ∧
    0 < obsW.carrier_doppler := by
  have hcf : casefold "gps" = "gps" := by decide
  have hco : compute_observables cfgB [("GPS1", sA1)] [("GPS1", 0)] [("GPS1", 0)]
      [("GPS1", 0)] 0 0 noise0 0 = some ([("GPS1", obsW)], 3) := by
    simp [compute_observables, observables_step, observable_of, dinsert, dlookup, dkeys,
          cfgB, sA1, sigGPS, hcf, noise0, obsW, SPEED_OF_LIGHT]
  have h := doppler_sign cfgB [("GPS1", sA1)] [("GPS1", 0)] [("GPS1", 0)] [("GPS1", 0)]
    0 0 noise0 0 [("GPS1", obsW)] 3 "GPS1" sA1 sigGPS (by decide) hco (by decide)
    (by decide)
  refine ⟨hco, h.2.2 obsW (by simp [dlookup]) ?_ ?_ rfl rfl ?_⟩
  · norm_num [sA1]
  · simp [dlookup]
  · norm_num [sigGPS]

theorem cfgB_nperiods : cfgB.nperiods = 3 := by
  simp [SimConfig.nperiods, SimConfig.tsim, cfgB]

/-- Claim C5 (counterexample): with one emitter of an unknown constellation
visible only at the second epoch, the run processes the first epoch in full
(one observable mapping is appended) and only then aborts: the missing
signal descriptor is not surfaced before any epoch is processed. -/
theorem missing_descriptor_not_failfast :
    ((run_epochs cfgB noise0 [(0, 0, 0), (0, 0, 0)] [0, 0] [0, 0]
        [[("GPS1", sA1)], [("BAD1", sBAD)]] TrackerState.init 0 0).1.length,
     (run_epochs cfgB noise0 [(0, 0, 0), (0, 0, 0)] [0, 0] [0, 0]
        [[("GPS1", sA1)], [("BAD1", sBAD)]] TrackerState.init 0 0).2) = (1, true) := by
  have hcf : casefold "gps" = "gps" := by decide
  have hcb : casefold "bad" = "bad" := by decide
  simp [run_epochs, nth, compute_channel_delays, channel_step, epoch_iono, epoch_tropo,
        reconciled_state, update_emitters_in_period, compute_observables,
        observables_step, observable_of, dinsert, dremove, dlookup, dkeys,
        cfgB, sA1, sBAD, sigGPS, noise0, TrackerState.init, hcf, hcb]

/-- Claim C5 (amended): a missing signal descriptor for a visible emitter's
constellation does abort the run, but the error surfaces inside the epoch
loop — at the epoch where such an emitter is visible, after all earlier
epochs were processed — not before any epoch is processed. -/
theorem missing_descriptor_aborts_in_loop
    (cfg : SimConfig) (noise : ℕ → ℚ) (posL : List Vec3) (cbL cdL : List ℚ)
    (epochs : List (Dict EmitterState)) (st : TrackerState) (k period : ℕ)
    (hbad : ∃ em ∈ epochs, ∃ p ∈ em,
      dlookup (casefold (p : String × EmitterState).2.constellation) cfg.signals
        = none) :
    (run_epochs cfg noise posL cbL cdL epochs st k period).2 = true :=
  run_epochs_err_of_missing cfg noise posL cbL cdL epochs st k period hbad

theorem missing_descriptor_aborts_in_loop_witness :
    (run_epochs cfgB noise0 [(0, 0, 0)] [0] [0] [[("BAD1", sBAD)]]
      TrackerState.init 0 0).2 = true :=
  missing_descriptor_aborts_in_loop cfgB noise0 [(0, 0, 0)] [0] [0]
    [[("BAD1", sBAD)]] TrackerState.init 0 0
    ⟨[("BAD1", sBAD)], by simp, ("BAD1", sBAD), by simp, by decide⟩

/-- Claim C7 (counterexample): a two-row trajectory against a three-epoch
grid is accepted by the receiver-state construction without any
trajectory-shape error (the slice keeps the two available rows), and the
run then proceeds, processing two epochs before aborting on the missing
third receiver state inside the epoch loop. -/
theorem trajectory_shape_silent_truncation :
    (simulate_receiver_states cfgB [(0, 0, 0), (1, 1, 1)]
        (some [(0, 0, 0), (1, 1, 1)])).map (fun r => r.pos.length) = some 2 ∧
    (simulate cfgB [(0, 0, 0), (1, 1, 1)] (some [(0, 0, 0), (1, 1, 1)])
        [[], [], []] noise0).map (fun r => (r.2.1.length, r.2.2)) = some (2, true) := by
  constructor
  · simp [simulate_receiver_states, cfgB_nperiods]
  · simp [simulate, simulate_receiver_states, run_epochs, nth,
          compute_channel_delays, channel_step, reconciled_state,
          update_emitters_in_period, compute_observables, observables_step,
          dinsert, dremove, dlookup, dkeys, cfgB_nperiods, noise0,
          TrackerState.init, show cfgB.is_rx_clock_simulated = false from rfl]

/-- Claim C7 (amended): `__simulate_receiver_states` performs no shape
validation on the trajectory path: with a non-`None` velocity it always
succeeds, silently slicing both arrays with `[: nperiods]` — a trajectory
shorter than the epoch count is kept at its own (shorter) length instead of
raising a trajectory-shape error; the shortage surfaces only later, inside
the epoch loop, as an index error. -/
theorem trajectory_truncation
    (cfg : SimConfig) (rxp v : List Vec3) (hlen : rxp.length ≠ 1) :
    simulate_receiver_states cfg rxp (some v)
      = some { time := timeseries cfg, pos := rxp.take cfg.nperiods,
               vel := v.take cfg.nperiods,
               clock_bias := if cfg.is_rx_clock_simulated
                 then (cfg.compute_clock_states cfg.nperiods).1
                 else List.replicate cfg.nperiods 0,
               clock_drift := if cfg.is_rx_clock_simulated
                 then (cfg.compute_clock_states cfg.nperiods).2
                 else List.replicate cfg.nperiods 0 } := by
  rcases rxp with _ | ⟨a, _ | ⟨b, t⟩⟩
  · by_cases hc : cfg.is_rx_clock_simulated <;>
      simp [simulate_receiver_states, hc]
  · exact absurd rfl hlen
  · by_cases hc : cfg.is_rx_clock_simulated <;>
      simp [simulate_receiver_states, hc]

theorem trajectory_truncation_witness :
    simulate_receiver_states cfgB [(0, 0, 0), (1, 1, 1)]
        (some [(2, 2, 2), (3, 3, 3)])
      = some { time := timeseries cfgB, pos := [(0, 0, 0), (1, 1, 1)],
               vel := [(2, 2, 2), (3, 3, 3)],
               clock_bias := List.replicate 3 0,
               clock_drift := List.replicate 3 0 } := by
  have h := trajectory_truncation cfgB [(0, 0, 0), (1, 1, 1)]
    [(2, 2, 2), (3, 3, 3)] (by decide)
  rw [h]
  simp [cfgB_nperiods, show cfgB.is_rx_clock_simulated = false from rfl]

theorem timeseries_length (cfg : SimConfig) :
    (timeseries cfg).length = cfg.nperiods := by
  simp [timeseries]

/-- Claim C8 (counterexample): with a single static position and a supplied
static velocity `(4,5,6)`, the receiver truth state's velocity is the zero
vector at every epoch — the supplied velocity is discarded
(`np.zeros_like`), not broadcast. -/
theorem static_velocity_ignored :
    (simulate_receiver_states cfgB [(1, 2, 3)] (some [(4, 5, 6)])).map
        (fun r => r.vel) = some (List.replicate 3 (0, 0, 0)) ∧
    (simulate_receiver_states cfgB [(1, 2, 3)] (some [(4, 5, 6)])).map
        (fun r => r.vel) ≠ some (List.replicate 3 ((4 : ℚ), (5 : ℚ), (6 : ℚ))) := by
  have h : (simulate_receiver_states cfgB [(1, 2, 3)] (some [(4, 5, 6)])).map
      (fun r => r.vel) = some (List.replicate 3 (0, 0, 0)) := by
    simp [simulate_receiver_states, cfgB_nperiods]
  refine ⟨h, ?_⟩
  rw [h]
  intro hc
  have hc' : List.replicate 3 ((0 : ℚ), (0 : ℚ), (0 : ℚ))
      = List.replicate 3 ((4 : ℚ), (5 : ℚ), (6 : ℚ)) := Option.some.inj hc
  have h1 : ((0 : ℚ), (0 : ℚ), (0 : ℚ)) = (((4 : ℚ), (5 : ℚ), (6 : ℚ)) : Vec3) := by
    have h2 := congrArg (fun l : List Vec3 => l.headI) hc'
    simpa [List.replicate] using h2
  have h0 : (0 : ℚ) = 4 := congrArg (fun v : Vec3 => v.1) h1
  norm_num at h0

/-- Claim C8 (amended): with a single static `rx_pos` the position is
broadcast to every epoch, but the supplied static velocity is ignored: the
velocity array is `np.zeros_like(rx_pos)`, zero at every epoch, whatever
`rx_vel` is; all receiver-state arrays are aligned to the epoch-grid
length (for the clock arrays, provided the external clock model meets its
length contract when enabled). -/
theorem static_broadcast
    (cfg : SimConfig) (p : Vec3) (rx_vel : Option (List Vec3))
    (hb : (cfg.compute_clock_states cfg.nperiods).1.length = cfg.nperiods)
    (hd : (cfg.compute_clock_states cfg.nperiods).2.length = cfg.nperiods) :
    (simulate_receiver_states cfg [p] rx_vel).isSome ∧
    (∀ st, simulate_receiver_states cfg [p] rx_vel = some st →
      st.pos = List.replicate cfg.nperiods p ∧
      st.vel = List.replicate cfg.nperiods ((0 : ℚ), (0 : ℚ), (0 : ℚ)) ∧
      st.time.length = cfg.nperiods ∧
      st.pos.length = cfg.nperiods ∧
      st.vel.length = cfg.nperiods ∧
      st.clock_bias.length = cfg.nperiods ∧
      st.clock_drift.length = cfg.nperiods) := by
  constructor
  · simp [simulate_receiver_states]
  · intro st hst
    simp only [simulate_receiver_states, Option.some_bind, Option.some.injEq] at hst
    subst hst
    by_cases hc : cfg.is_rx_clock_simulated
    · exact ⟨rfl, rfl, timeseries_length cfg, by simp, by simp,
        by simp [hc, hb], by simp [hc, hd]⟩
    · exact ⟨rfl, rfl, timeseries_length cfg, by simp, by simp,
        by simp [hc], by simp [hc]⟩

theorem static_broadcast_witness :
    simulate_receiver_states cfgB [(1, 2, 3)] (some [(4, 5, 6)]) = some rxStaticB ∧
    rxStaticB.vel = List.replicate cfgB.nperiods ((0 : ℚ), (0 : ℚ), (0 : ℚ)) ∧
    rxStaticB.clock_bias.length = cfgB.nperiods := by
  have hst : simulate_receiver_states cfgB [(1, 2, 3)] (some [(4, 5, 6)])
      = some rxStaticB := by
    simp [simulate_receiver_states, cfgB_nperiods, rxStaticB,
          show cfgB.is_rx_clock_simulated = false from rfl]
  have h := static_broadcast cfgB (1, 2, 3) (some [(4, 5, 6)])
    (by simp [show cfgB.compute_clock_states
        = fun n => (List.replicate n 0, List.replicate n 0) from rfl])
    (by simp [show cfgB.compute_clock_states
        = fun n => (List.replicate n 0, List.replicate n 0) from rfl])
  have h2 := h.2 rxStaticB hst
  exact ⟨hst, h2.2.1, h2.2.2.2.2.2.1⟩

/-- Claim C10: although `rx_vel` is declared optional (default `None`), any
`simulate` call with a trajectory `rx_pos` (numpy size other than 3) and
the default `rx_vel = None` fails during receiver-state construction — the
`None` is sliced — before any epoch is processed (the run produces no
observables); a non-`None` velocity with at least epoch-count rows yields a
velocity array aligned to the epoch grid. -/
theorem trajectory_requires_velocity
    (cfg : SimConfig) (rxp : List Vec3) (hlen : rxp.length ≠ 1) :
    simulate_receiver_states cfg rxp none = none ∧
    (∀ (ems : List (Dict EmitterState)) (noise : ℕ → ℚ),
      simulate cfg rxp none ems noise = none) ∧
    (∀ v : List Vec3, cfg.nperiods ≤ v.length →
      ∀ st, simulate_receiver_states cfg rxp (some v) = some st →
        st.vel.length = cfg.nperiods) := by
  have hnone : simulate_receiver_states cfg rxp none = none := by
    rcases rxp with _ | ⟨a, _ | ⟨b, t⟩⟩
    · rfl
    · exact absurd rfl hlen
    · rfl
  refine ⟨hnone, ?_, ?_⟩
  · intro ems noise
    rw [simulate, hnone]
    rfl
  · intro v hv st hst
    rcases rxp with _ | ⟨a, _ | ⟨b, t⟩⟩
    · simp only [simulate_receiver_states, Option.some_bind,
        Option.some.injEq] at hst
      subst hst
      simpa using hv
    · exact absurd rfl hlen
    · simp only [simulate_receiver_states, Option.some_bind,
        Option.some.injEq] at hst
      subst hst
      simpa using hv

theorem trajectory_requires_velocity_witness :
    simulate_receiver_states cfgB [(0, 0, 0), (1, 1, 1)] none = none ∧
    simulate cfgB [(0, 0, 0), (1, 1, 1)] none [[], [], []] noise0 = none := by
  have h := trajectory_requires_velocity cfgB [(0, 0, 0), (1, 1, 1)] (by decide)
  exact ⟨h.1, h.2.1 [[], [], []] noise0⟩
